import Mathlib

/-!
# UART driver of the Stellaris Launchpad example project

A shallow embedding of `src/drivers/uart/src/uart.c` and theorems about it.

The driver talks to memory-mapped hardware.  The embedding keeps the driver
code as it is written and puts the hardware behind a small explicit model:

* every storage register of a UART block is a natural number (a 32-bit word);
* the data register `DR_R` is the window onto the two hardware FIFOs: a read
  pops the receive FIFO, a write hands one byte to the transmitter;
* the flag register `FR_R` is read-only status computed by the hardware from
  the FIFOs, so the driver's write `FR_R = 0` does not change what later reads
  of the flags return;
* the interrupt controller is a table of per-line enable bits;
* calling a registered callback is recorded as an event in a log.

Constants, enumerations and helper routines that live in headers outside
`uart.c` are either parameters (`uart_defs`) or are marked as modelled.
-/

namespace Uart

/-! ## Constants and types from the headers -/

/-- Number of UART instances.  The macro is defined in `uart.h`, outside
`uart.c`; the value is the number of initialisers of the tables `uart_base`
and `uart_int_map` (eight each, UART 0 to UART 7) and the number of `uartN_irq`
entry points in `uart.c`. -/
def NUM_UARTS : Nat := 8

/-- The size of the stack buffer of the interrupt handler,
`#define RX_IRQ_FIFO_SIZE 16`. -/
def RX_IRQ_FIFO_SIZE : Nat := 16

/-- Modelled from the spec: the status codes declared in `drivers/uart/uart.h`,
which is absent.  The spec names the outcomes `Ok`, `InvalidPort`,
`InvalidParity`, `InvalidDataBits` and `InterruptModeActive`; the constructors
carry the names used in `uart.c`.  They are pairwise distinct. -/
inductive uart_status_t
  | UART_OK
  | UART_ERROR_INVALID_ID
  | UART_ERROR_INVALID_PARITY
  | UART_ERROR_INVALID_DATABITS
  | UART_ERROR_INTERRUPT_MODE
  deriving DecidableEq

/-- The result of the routines that return `ssize_t`: "the number of bytes
read or, if -ve, an error" (`uart.c`, comment above `uart_read`).  A
non-negative return value is `bytes n`, a negative one is `error code`.  The
counters `read` and `written` are kept as natural numbers: they never exceed
the buffer size, and a buffer on this 32-bit part is far shorter than 2^31
bytes, so the signed counter never wraps. -/
inductive ssize_t
  | bytes (n : Nat)
  | error (code : uart_status_t)
  deriving DecidableEq

/-- Modelled from the spec: the enumeration `uart_parity_t` of the absent
`uart.h`.  The spec lists the legal values None, Even and Odd; a C caller can
pass any other integer, which is `invalid raw` and reaches the `default:`
label of the `switch`. -/
inductive uart_parity_t
  | UART_PARITY_NONE
  | UART_PARITY_EVEN
  | UART_PARITY_ODD
  | invalid (raw : Nat)
  deriving DecidableEq

/-- Modelled from the spec: the enumeration `uart_databits_t` of the absent
`uart.h`, legal values 5, 6, 7 and 8 data bits; any other integer is
`invalid raw` and reaches the `default:` label of the `switch`. -/
inductive uart_databits_t
  | UART_DATABITS_5
  | UART_DATABITS_6
  | UART_DATABITS_7
  | UART_DATABITS_8
  | invalid (raw : Nat)
  deriving DecidableEq

/-- Modelled from the spec: the enumeration `uart_stopbits_t` of the absent
`uart.h`.  "Stop-bits has only two legal values"; any other integer is
`other raw`. -/
inductive uart_stopbits_t
  | UART_STOPBITS_1
  | UART_STOPBITS_2
  | other (raw : Nat)
  deriving DecidableEq

/-- The macros `uart.c` takes from headers that are not part of the sources:
the peripheral clock rate and the bit masks of the line-control, interrupt-mask
and control registers.  They are parameters of the embedding. -/
structure uart_defs where
  CLOCK_RATE : Nat
  UART_LCRH_FEN : Nat
  UART_LCRH_EPS : Nat
  UART_LCRH_PEN : Nat
  UART_LCRH_WLEN_5 : Nat
  UART_LCRH_WLEN_6 : Nat
  UART_LCRH_WLEN_7 : Nat
  UART_LCRH_WLEN_8 : Nat
  UART_LCRH_STP2 : Nat
  UART_IM_RXIM : Nat
  UART_IM_RTIM : Nat
  UART_CTL_RXE : Nat
  UART_CTL_TXE : Nat
  UART_CTL_UARTEN : Nat

/-- A function pointer of type `uart_callback_fn_t`, as an address. -/
abbrev uart_callback_fn_t := Nat

/-- The null pointer. -/
def NULL : uart_callback_fn_t := 0

/-! ## The hardware -/

/-- One UART register block (`struct uart_register_map_t`) together with the
hardware behind its two special registers.

The storage registers keep the names of the C struct.  `DR_R` and `FR_R` are
not storage: `rx_fifo` holds the entries waiting in the receive FIFO, oldest
first, each a raw data-register word; `tx_free` is the number of free slots in
the transmit FIFO and `tx_sent` lists every byte accepted by the transmit data
register so far, oldest first.  A byte is its 8-bit pattern, a number below
256.  `tx_drain` and `tx_tick` describe the transmitter while the driver spins
on a full FIFO: the poll number `t` of a full FIFO frees one slot exactly when
`tx_drain t` is true.  Between two such polls the FIFOs change only through
the driver: no byte arrives and no slot is freed in the middle of a call that
does not spin. -/
structure uart_register_map_t where
  RSR_R : Nat
  ILPR_R : Nat
  IBRD_R : Nat
  FBRD_R : Nat
  LCRH_R : Nat
  CTL_R : Nat
  IFLS_R : Nat
  IM_R : Nat
  RIS_R : Nat
  MIS_R : Nat
  ICR_R : Nat
  DMACTL_R : Nat
  rx_fifo : List Nat
  tx_free : Nat
  tx_sent : List Nat
  tx_tick : Nat
  tx_drain : Nat → Bool

/-- The value of the C expression `(FR_R & UART_FR_RXFE) == 0`: the hardware
sets the receive-FIFO-empty flag exactly when the receive FIFO is empty. -/
def FR_R_RXFE_clear (r : uart_register_map_t) : Bool :=
  !r.rx_fifo.isEmpty

/-- A read of `DR_R`: pops the oldest entry of the receive FIFO.  (A read of
an empty FIFO, which the driver never performs, yields 0.) -/
def DR_R_read (r : uart_register_map_t) : Nat × uart_register_map_t :=
  match r.rx_fifo with
  | [] => (0, r)
  | x :: xs => (x, { r with rx_fifo := xs })

/-- The value of the C expression `(FR_R & UART_FR_TXFF) == 0` and the hardware
after the read.  With a free slot the flag is clear and nothing changes.  With
no free slot the flag is set; the poll takes one tick of transmitter time, and
the transmitter frees one slot if its drain schedule says so at this tick. -/
def FR_R_TXFF_clear (r : uart_register_map_t) : Bool × uart_register_map_t :=
  if 0 < r.tx_free then (true, r)
  else (false, { r with tx_tick := r.tx_tick + 1,
                        tx_free := if r.tx_drain r.tx_tick then 1 else 0 })

/-- A write of `DR_R`: the byte goes into the transmit FIFO and takes one
slot. -/
def DR_R_write (r : uart_register_map_t) (c : Nat) : uart_register_map_t :=
  { r with tx_sent := r.tx_sent ++ [c], tx_free := r.tx_free - 1 }

/-- A write of `FR_R`.  The flag register is read-only status: the hardware
ignores the written value. -/
def FR_R_write (r : uart_register_map_t) (_v : Nat) : uart_register_map_t :=
  r

/-- One call of a registered callback: the function called and its three
arguments; `buffer` lists the `num_chars` bytes the handler stored in its
stack buffer. -/
structure uart_callback_call where
  fn : uart_callback_fn_t
  uart_id : Nat
  buffer : List Nat
  num_chars : Nat
  deriving DecidableEq

/-- Everything the driver can read or change: the clock-gating register
`SYSCTL_RCGCUART_R`, the register block at each `uart_base[i]`, the driver's
own table `interrupt_fn_table`, the enable bit of each interrupt line of the
interrupt controller, and the log of callback calls made so far. -/
structure machine_t where
  SYSCTL_RCGCUART_R : Nat
  uart_base : Nat → uart_register_map_t
  interrupt_fn_table : Nat → uart_callback_fn_t
  interrupt_enabled : Nat → Bool
  callbacks : List uart_callback_call

/-- Store `r` as the register block of UART `i`. -/
def machine_t.set_uart (s : machine_t) (i : Nat) (r : uart_register_map_t) : machine_t :=
  { s with uart_base := Function.update s.uart_base i r }

/-- The table `uart_int_map`: interrupt line of each UART ("See table 2-9"). -/
def uart_int_map (uart_id : Nat) : Nat :=
  [5, 6, 33, 59, 60, 61, 62, 63].getD uart_id 0

/-- Modelled from the spec: `enable_interrupt` of the absent
`drivers/misc/misc.h`, "enable interrupt line L", idempotent and
side-effect-only. -/
def enable_interrupt (s : machine_t) (line : Nat) : machine_t :=
  { s with interrupt_enabled := Function.update s.interrupt_enabled line true }

/-- Modelled from the spec: `disable_interrupt` of the absent
`drivers/misc/misc.h`, "disable interrupt line L", idempotent and
side-effect-only. -/
def disable_interrupt (s : machine_t) (line : Nat) : machine_t :=
  { s with interrupt_enabled := Function.update s.interrupt_enabled line false }

/-- The complement `~x` of a 32-bit word. -/
def not32 (x : Nat) : Nat := (2 ^ 32 - 1) ^^^ x

/-! ## uart_init -/

/-- The `switch (parity)` of `uart_init`: the new value of `ctrl`, or `none`
at the `default:` label. -/
def uart_init_parity (k : uart_defs) (ctrl : Nat) : uart_parity_t → Option Nat
  | .UART_PARITY_EVEN => some ((ctrl ||| k.UART_LCRH_EPS) ||| k.UART_LCRH_PEN)
  | .UART_PARITY_ODD => some (ctrl ||| k.UART_LCRH_PEN)
  | .UART_PARITY_NONE => some ctrl
  | .invalid _ => none

/-- The `switch (databits)` of `uart_init`: the new value of `ctrl`, or `none`
at the `default:` label. -/
def uart_init_databits (k : uart_defs) (ctrl : Nat) : uart_databits_t → Option Nat
  | .UART_DATABITS_5 => some (ctrl ||| k.UART_LCRH_WLEN_5)
  | .UART_DATABITS_6 => some (ctrl ||| k.UART_LCRH_WLEN_6)
  | .UART_DATABITS_7 => some (ctrl ||| k.UART_LCRH_WLEN_7)
  | .UART_DATABITS_8 => some (ctrl ||| k.UART_LCRH_WLEN_8)
  | .invalid _ => none

/-- The value `(((CLOCK_RATE * 8) / baud_rate) + 1) / 2` in 32-bit unsigned
arithmetic.  The sum cannot wrap: the product is a multiple of 8 below 2^32. -/
def baud_int (k : uart_defs) (baud_rate : Nat) : Nat :=
  ((((k.CLOCK_RATE * 8) % 2 ^ 32) / baud_rate) + 1) / 2

/-- The first two register writes of `uart_init`: open the clock gate of the
UART in `SYSCTL_RCGCUART_R` and clear the control register, which disables the
UART and all features. -/
def uart_init_disable (s : machine_t) (uart_id : Nat) : machine_t :=
  let s1 := { s with SYSCTL_RCGCUART_R := s.SYSCTL_RCGCUART_R ||| (1 <<< uart_id) }
  s1.set_uart uart_id { s1.uart_base uart_id with CTL_R := 0 }

/-- The step "Store the upper and lower parts of the divider". -/
def uart_init_set_baud (k : uart_defs) (s : machine_t) (uart_id baud_rate : Nat) : machine_t :=
  let s1 := s.set_uart uart_id { s.uart_base uart_id with IBRD_R := baud_int k baud_rate / 64 }
  s1.set_uart uart_id { s1.uart_base uart_id with FBRD_R := baud_int k baud_rate % 64 }

/-- The end of the line-control computation: the stop-bits test, the write of
`LCRH_R` and the write `FR_R = 0` ("Clear the flags"). -/
def uart_init_line_control (k : uart_defs) (s : machine_t) (uart_id : Nat) (ctrl : Nat)
    (stopbits : uart_stopbits_t) : machine_t :=
  let ctrl1 := if stopbits = .UART_STOPBITS_2 then ctrl ||| k.UART_LCRH_STP2 else ctrl
  let s1 := s.set_uart uart_id { s.uart_base uart_id with LCRH_R := ctrl1 }
  s1.set_uart uart_id (FR_R_write (s1.uart_base uart_id) 0)

/-- The "Set any interrupts" step of `uart_init`. -/
def uart_init_interrupts (k : uart_defs) (s : machine_t) (uart_id : Nat)
    (cbfn : uart_callback_fn_t) : machine_t :=
  if cbfn ≠ NULL then
    let s1 := { s with interrupt_fn_table := Function.update s.interrupt_fn_table uart_id cbfn }
    let s2 := s1.set_uart uart_id
      { s1.uart_base uart_id with
        IM_R := (s1.uart_base uart_id).IM_R ||| (k.UART_IM_RXIM ||| k.UART_IM_RTIM) }
    enable_interrupt s2 (uart_int_map uart_id)
  else
    let s1 := disable_interrupt s (uart_int_map uart_id)
    let s2 := s1.set_uart uart_id
      { s1.uart_base uart_id with
        IM_R := (s1.uart_base uart_id).IM_R &&& not32 (k.UART_IM_RXIM ||| k.UART_IM_RTIM) }
    { s2 with interrupt_fn_table := Function.update s2.interrupt_fn_table uart_id NULL }

/-- The step "Re-enable UART". -/
def uart_init_enable (k : uart_defs) (s : machine_t) (uart_id : Nat) : machine_t :=
  s.set_uart uart_id
    { s.uart_base uart_id with
      CTL_R := (s.uart_base uart_id).CTL_R |||
        ((k.UART_CTL_RXE ||| k.UART_CTL_TXE) ||| k.UART_CTL_UARTEN) }

/-- The function `uart_init`, its steps in the order of the source.  The
result is `none` when the C code divides by a zero `baud_rate` (undefined
behaviour); otherwise it is the returned status and the machine after the
call. -/
def uart_init (k : uart_defs) (s : machine_t) (uart_id : Nat) (baud_rate : Nat)
    (parity : uart_parity_t) (databits : uart_databits_t) (stopbits : uart_stopbits_t)
    (cbfn : uart_callback_fn_t) : Option (uart_status_t × machine_t) :=
  if uart_id ≥ NUM_UARTS then
    some (.UART_ERROR_INVALID_ID, s)
  else
    -- Enable UART module in RCGUART register; disable UART and all features
    let s1 := uart_init_disable s uart_id
    -- Calculate the baud rate values
    if baud_rate = 0 then
      none
    else
      let s2 := uart_init_set_baud k s1 uart_id baud_rate
      -- Calculate the UART Line Control register value
      match uart_init_parity k k.UART_LCRH_FEN parity with
      | none => some (.UART_ERROR_INVALID_PARITY, s2)
      | some ctrl1 =>
        match uart_init_databits k ctrl1 databits with
        | none => some (.UART_ERROR_INVALID_DATABITS, s2)
        | some ctrl2 =>
          let s3 := uart_init_line_control k s2 uart_id ctrl2 stopbits
          -- Set any interrupts
          let s4 := uart_init_interrupts k s3 uart_id cbfn
          -- Re-enable UART
          some (.UART_OK, uart_init_enable k s4 uart_id)

/-- The machine after a call of `uart_init` that passes both `switch`
statements with line-control value `ctrl`: all register writes of the function,
in order. -/
def uart_init_steps (k : uart_defs) (s : machine_t) (uart_id baud_rate ctrl : Nat)
    (stopbits : uart_stopbits_t) (cbfn : uart_callback_fn_t) : machine_t :=
  uart_init_enable k (uart_init_interrupts k
    (uart_init_line_control k
      (uart_init_set_baud k (uart_init_disable s uart_id) uart_id baud_rate)
      uart_id ctrl stopbits) uart_id cbfn) uart_id

/-! ## uart_read -/

/-- The `while (read < buffer_size)` loop of `uart_read`.  `todo` is
`buffer_size - read`, the number of iterations the loop condition still
allows; `buffer` is the memory behind the `char*` argument, by index. -/
def uart_read_loop (r : uart_register_map_t) (buffer : Nat → Nat) (read : Nat) :
    Nat → Nat × (Nat → Nat) × uart_register_map_t
  | 0 => (read, buffer, r)
  | todo + 1 =>
    if FR_R_RXFE_clear r then
      let d := DR_R_read r
      uart_read_loop d.2 (Function.update buffer read (d.1 &&& 0xFF)) (read + 1) todo
    else
      (read, buffer, r)

/-- The function `uart_read`: the returned value, the memory behind `buffer`
after the call, and the machine after the call. -/
def uart_read (s : machine_t) (uart_id : Nat) (buffer : Nat → Nat) (buffer_size : Nat) :
    ssize_t × (Nat → Nat) × machine_t :=
  if uart_id ≥ NUM_UARTS then
    (.error .UART_ERROR_INVALID_ID, buffer, s)
  else if s.interrupt_fn_table uart_id ≠ NULL then
    -- Can't read from a UART when rx interrupts are enabled
    (.error .UART_ERROR_INTERRUPT_MODE, buffer, s)
  else
    let out := uart_read_loop (s.uart_base uart_id) buffer 0 (buffer_size - 0)
    (.bytes out.1, out.2.1, s.set_uart uart_id out.2.2)

/-! ## uart_write and uart_write_nonblock -/

/-- The `while (written < buffer_size)` loop of `uart_write`.  The loop has no
`else break`, so it spins while the transmit FIFO is full; `fuel` bounds the
number of iterations and the result is `none` when it runs out. -/
def uart_write_loop (buffer : Nat → Nat) (buffer_size : Nat) :
    Nat → uart_register_map_t → Nat → Option uart_register_map_t
  | 0, _, _ => none
  | fuel + 1, r, written =>
    if written < buffer_size then
      let p := FR_R_TXFF_clear r
      if p.1 then
        uart_write_loop buffer buffer_size fuel (DR_R_write p.2 (buffer written)) (written + 1)
      else
        uart_write_loop buffer buffer_size fuel p.2 written
    else
      some r

/-- The function `uart_write`; `none` when `fuel` iterations of the loop were
not enough for it to return. -/
def uart_write (fuel : Nat) (s : machine_t) (uart_id : Nat) (buffer : Nat → Nat)
    (buffer_size : Nat) : Option (uart_status_t × machine_t) :=
  if uart_id ≥ NUM_UARTS then
    some (.UART_ERROR_INVALID_ID, s)
  else
    match uart_write_loop buffer buffer_size fuel (s.uart_base uart_id) 0 with
    | none => none
    | some r => some (.UART_OK, s.set_uart uart_id r)

/-- The `while (written < buffer_size)` loop of `uart_write_nonblock`, which
leaves at the first full flag.  `todo` is `buffer_size - written`. -/
def uart_write_nonblock_loop (buffer : Nat → Nat) (r : uart_register_map_t) (written : Nat) :
    Nat → Nat × uart_register_map_t
  | 0 => (written, r)
  | todo + 1 =>
    let p := FR_R_TXFF_clear r
    if p.1 then
      uart_write_nonblock_loop buffer (DR_R_write p.2 (buffer written)) (written + 1) todo
    else
      (written, p.2)

/-- The C library function `strlen` on the memory behind a `char*`: the index
of the first zero byte, searched from `i`; `none` when there is none among the
next `fuel` bytes. -/
def strlen_from (sz_buffer : Nat → Nat) : Nat → Nat → Option Nat
  | 0, _ => none
  | fuel + 1, i => if sz_buffer i = 0 then some i else strlen_from sz_buffer fuel (i + 1)

/-- The function `uart_write_str`; `none` when `fuel` steps were not enough
for `strlen` or for `uart_write` to return. -/
def uart_write_str (fuel : Nat) (s : machine_t) (uart_id : Nat) (sz_buffer : Nat → Nat) :
    Option (uart_status_t × machine_t) :=
  match strlen_from sz_buffer fuel 0 with
  | none => none
  | some len => uart_write fuel s uart_id sz_buffer len

/-- The function `uart_write_nonblock`. -/
def uart_write_nonblock (s : machine_t) (uart_id : Nat) (buffer : Nat → Nat)
    (buffer_size : Nat) : ssize_t × machine_t :=
  if uart_id ≥ NUM_UARTS then
    (.error .UART_ERROR_INVALID_ID, s)
  else
    let out := uart_write_nonblock_loop buffer (s.uart_base uart_id) 0 (buffer_size - 0)
    (.bytes out.1, s.set_uart uart_id out.2)

/-! ## uart_irq -/

/-- The `while` loop of `uart_irq`.  `todo` is `NUMELTS(buffer) - num_chars`;
`buffer` lists the bytes stored so far at `buffer[0 .. num_chars - 1]`. -/
def uart_irq_loop (r : uart_register_map_t) (buffer : List Nat) (num_chars : Nat) :
    Nat → List Nat × Nat × uart_register_map_t
  | 0 => (buffer, num_chars, r)
  | todo + 1 =>
    if FR_R_RXFE_clear r then
      let d := DR_R_read r
      uart_irq_loop d.2 (buffer ++ [d.1 &&& 0xFF]) (num_chars + 1) todo
    else
      (buffer, num_chars, r)

/-- The function `uart_irq`. -/
def uart_irq (s : machine_t) (uart_id : Nat) : machine_t :=
  if s.interrupt_fn_table uart_id ≠ NULL then
    let out := uart_irq_loop (s.uart_base uart_id) [] 0 (RX_IRQ_FIFO_SIZE - 0)
    let s1 := s.set_uart uart_id out.2.2
    { s1 with callbacks := s1.callbacks ++
        [{ fn := s1.interrupt_fn_table uart_id, uart_id := uart_id,
           buffer := out.1, num_chars := out.2.1 }] }
  else
    s

/-! ## The line-control value in the words of the specification -/

/-- The parity bits of the line-control register as the specification lists
them: "Even: parity-enable and even-select; Odd: parity-enable only; None:
neither". -/
def line_control_parity_bits (k : uart_defs) : uart_parity_t → Nat
  | .UART_PARITY_EVEN => k.UART_LCRH_PEN ||| k.UART_LCRH_EPS
  | .UART_PARITY_ODD => k.UART_LCRH_PEN
  | _ => 0

/-- The word-length field of the line-control register for the requested
number of data bits. -/
def line_control_word_length (k : uart_defs) : uart_databits_t → Nat
  | .UART_DATABITS_5 => k.UART_LCRH_WLEN_5
  | .UART_DATABITS_6 => k.UART_LCRH_WLEN_6
  | .UART_DATABITS_7 => k.UART_LCRH_WLEN_7
  | .UART_DATABITS_8 => k.UART_LCRH_WLEN_8
  | .invalid _ => 0

/-- The line-control value as the specification words it: the FIFO-enable bit,
OR the parity bits, OR the word-length field, OR the 2-stop-bits flag if and
only if the stop bits are the 2-stop-bits value.  Stated independently of
`uart_init`, to be compared with what `uart_init` writes. -/
def line_control_spec (k : uart_defs) (parity : uart_parity_t) (databits : uart_databits_t)
    (stopbits : uart_stopbits_t) : Nat :=
  ((k.UART_LCRH_FEN ||| line_control_parity_bits k parity) |||
    line_control_word_length k databits) |||
    (if stopbits = .UART_STOPBITS_2 then k.UART_LCRH_STP2 else 0)

/-! ## Sequences of calls -/

/-- One call of a driver routine other than `uart_init`, with its arguments:
`uart_read`, `uart_write`, `uart_write_str`, `uart_write_nonblock`, or one run
of the interrupt handler `uart_irq`. -/
inductive driver_call
  | read (uart_id : Nat) (buffer : Nat → Nat) (buffer_size : Nat)
  | write (fuel : Nat) (uart_id : Nat) (buffer : Nat → Nat) (buffer_size : Nat)
  | write_str (fuel : Nat) (uart_id : Nat) (sz_buffer : Nat → Nat)
  | write_nonblock (uart_id : Nat) (buffer : Nat → Nat) (buffer_size : Nat)
  | irq (uart_id : Nat)

/-- The machine after one call; `none` when a blocking write did not return
within its iteration bound. -/
def driver_call.apply (s : machine_t) : driver_call → Option machine_t
  | .read uart_id buffer buffer_size => some (uart_read s uart_id buffer buffer_size).2.2
  | .write fuel uart_id buffer buffer_size =>
    (uart_write fuel s uart_id buffer buffer_size).map Prod.snd
  | .write_str fuel uart_id sz_buffer => (uart_write_str fuel s uart_id sz_buffer).map Prod.snd
  | .write_nonblock uart_id buffer buffer_size =>
    some (uart_write_nonblock s uart_id buffer buffer_size).2
  | .irq uart_id => some (uart_irq s uart_id)

/-- The machine after a sequence of calls, made one after the other. -/
def apply_calls (s : machine_t) : List driver_call → Option machine_t
  | [] => some s
  | c :: cs =>
    match c.apply s with
    | none => none
    | some s1 => apply_calls s1 cs

/-! ## What belongs to one port -/

/-- Port `q` is the same in `s1` as in `s`: its register block with both
FIFOs, its slot of the callback table, the enable bit of its interrupt line
`uart_int_map[q]`, and its bit of the clock-gating register. -/
def port_unchanged (s s1 : machine_t) (q : Nat) : Prop :=
  s1.uart_base q = s.uart_base q ∧
  s1.interrupt_fn_table q = s.interrupt_fn_table q ∧
  s1.interrupt_enabled (uart_int_map q) = s.interrupt_enabled (uart_int_map q) ∧
  s1.SYSCTL_RCGCUART_R.testBit q = s.SYSCTL_RCGCUART_R.testBit q

/-! ## A concrete machine for worked examples -/

/-- An example set of header constants: the 16 MHz clock of the worked example
in the specification and the bit masks of the LM4F120 data sheet. -/
def example_defs : uart_defs where
  CLOCK_RATE := 16000000
  UART_LCRH_FEN := 0x10
  UART_LCRH_EPS := 0x04
  UART_LCRH_PEN := 0x02
  UART_LCRH_WLEN_5 := 0x00
  UART_LCRH_WLEN_6 := 0x20
  UART_LCRH_WLEN_7 := 0x40
  UART_LCRH_WLEN_8 := 0x60
  UART_LCRH_STP2 := 0x08
  UART_IM_RXIM := 0x10
  UART_IM_RTIM := 0x40
  UART_CTL_RXE := 0x200
  UART_CTL_TXE := 0x100
  UART_CTL_UARTEN := 0x01

/-- An example register block: all storage registers zero except the ones
given, the receive FIFO holding `rx`, `free` free transmit slots, nothing sent
yet, and a transmitter that frees a slot at every poll of a full FIFO. -/
def example_block (ctl im : Nat) (rx : List Nat) (free : Nat) : uart_register_map_t where
  RSR_R := 0
  ILPR_R := 0
  IBRD_R := 0
  FBRD_R := 0
  LCRH_R := 0
  CTL_R := ctl
  IFLS_R := 0
  IM_R := im
  RIS_R := 0
  MIS_R := 0
  ICR_R := 0
  DMACTL_R := 0
  rx_fifo := rx
  tx_free := free
  tx_sent := []
  tx_tick := 0
  tx_drain := fun _ => true

/-- An example machine: every UART is `example_block ctl im rx free`, UART
`mode_id` has callback `cb` registered (all other table slots are null), no
clock gate is open, no interrupt line is enabled and no callback has run. -/
def example_machine (ctl im : Nat) (rx : List Nat) (free : Nat) (mode_id : Nat)
    (cb : uart_callback_fn_t) : machine_t where
  SYSCTL_RCGCUART_R := 0
  uart_base := fun _ => example_block ctl im rx free
  interrupt_fn_table := fun i => if i = mode_id then cb else NULL
  interrupt_enabled := fun _ => false
  callbacks := []

/-- An example sequence of calls: a read on UART 0, a run of the handler of
UART 0, a two-byte non-blocking write and a blocking write of the text "ab" on
UART 0, a one-byte blocking write and a read on UART 1. -/
def example_calls : List driver_call :=
  [.read 0 (fun _ => 0) 4, .irq 0, .write_nonblock 0 (fun i => 0x61 + i) 2,
   .write_str 8 0 (fun i => if i < 2 then 0x61 + i else 0),
   .write 8 1 (fun i => 0x61 + i) 1, .read 1 (fun _ => 0) 4]

/-! ## Theorems -/

/-! ### The steps of uart_init, register by register -/

theorem set_uart_uart_base_same (s : machine_t) (i : Nat) (r : uart_register_map_t) :
    (s.set_uart i r).uart_base i = r := by
  simp [machine_t.set_uart]

theorem set_uart_uart_base_other (s : machine_t) (i j : Nat) (r : uart_register_map_t)
    (h : j ≠ i) : (s.set_uart i r).uart_base j = s.uart_base j := by
  simp [machine_t.set_uart, Function.update_noteq h]

theorem set_uart_self (s : machine_t) (i : Nat) : s.set_uart i (s.uart_base i) = s := by
  simp [machine_t.set_uart]

theorem uart_init_disable_block (s : machine_t) (i : Nat) :
    (uart_init_disable s i).uart_base i = { s.uart_base i with CTL_R := 0 } := by
  simp [uart_init_disable, machine_t.set_uart]

theorem uart_init_set_baud_block (k : uart_defs) (s : machine_t) (i b : Nat) :
    (uart_init_set_baud k s i b).uart_base i =
      { s.uart_base i with IBRD_R := baud_int k b / 64, FBRD_R := baud_int k b % 64 } := by
  simp [uart_init_set_baud, machine_t.set_uart]

theorem uart_init_line_control_block (k : uart_defs) (s : machine_t) (i c : Nat)
    (sb : uart_stopbits_t) :
    (uart_init_line_control k s i c sb).uart_base i =
      { s.uart_base i with
        LCRH_R := if sb = .UART_STOPBITS_2 then c ||| k.UART_LCRH_STP2 else c } := by
  simp [uart_init_line_control, machine_t.set_uart, FR_R_write]

theorem uart_init_interrupts_block (k : uart_defs) (s : machine_t) (i : Nat)
    (cb : uart_callback_fn_t) :
    (uart_init_interrupts k s i cb).uart_base i =
      { s.uart_base i with
        IM_R := if cb ≠ NULL then (s.uart_base i).IM_R ||| (k.UART_IM_RXIM ||| k.UART_IM_RTIM)
          else (s.uart_base i).IM_R &&& not32 (k.UART_IM_RXIM ||| k.UART_IM_RTIM) } := by
  by_cases h : cb = NULL <;>
    simp [uart_init_interrupts, h, machine_t.set_uart, enable_interrupt, disable_interrupt]

theorem uart_init_enable_block (k : uart_defs) (s : machine_t) (i : Nat) :
    (uart_init_enable k s i).uart_base i =
      { s.uart_base i with
        CTL_R := (s.uart_base i).CTL_R |||
          ((k.UART_CTL_RXE ||| k.UART_CTL_TXE) ||| k.UART_CTL_UARTEN) } := by
  simp [uart_init_enable, machine_t.set_uart]

/-- A port index out of range: `uart_init` returns at once. -/
theorem uart_init_invalid_id (k : uart_defs) (s : machine_t) (uart_id baud_rate : Nat)
    (parity : uart_parity_t) (databits : uart_databits_t) (stopbits : uart_stopbits_t)
    (cbfn : uart_callback_fn_t) (hid : NUM_UARTS ≤ uart_id) :
    uart_init k s uart_id baud_rate parity databits stopbits cbfn
      = some (.UART_ERROR_INVALID_ID, s) := by
  unfold uart_init
  rw [if_pos hid]

/-- A port index in range and a non-zero baud rate: `uart_init` as the two
`switch` statements decide. -/
theorem uart_init_valid_id (k : uart_defs) (s : machine_t) (uart_id baud_rate : Nat)
    (parity : uart_parity_t) (databits : uart_databits_t) (stopbits : uart_stopbits_t)
    (cbfn : uart_callback_fn_t) (hid : uart_id < NUM_UARTS) (hB : baud_rate ≠ 0) :
    uart_init k s uart_id baud_rate parity databits stopbits cbfn =
      match uart_init_parity k k.UART_LCRH_FEN parity with
      | none => some (.UART_ERROR_INVALID_PARITY,
          uart_init_set_baud k (uart_init_disable s uart_id) uart_id baud_rate)
      | some ctrl1 =>
        match uart_init_databits k ctrl1 databits with
        | none => some (.UART_ERROR_INVALID_DATABITS,
            uart_init_set_baud k (uart_init_disable s uart_id) uart_id baud_rate)
        | some ctrl2 =>
          some (.UART_OK, uart_init_steps k s uart_id baud_rate ctrl2 stopbits cbfn) := by
  unfold uart_init uart_init_steps
  rw [if_neg (Nat.not_le.mpr hid)]
  simp only [if_neg hB]

theorem uart_init_parity_valid (k : uart_defs) (ctrl : Nat) (parity : uart_parity_t)
    (h : parity = .UART_PARITY_NONE ∨ parity = .UART_PARITY_EVEN ∨
      parity = .UART_PARITY_ODD) :
    ∃ c, uart_init_parity k ctrl parity = some c := by
  rcases h with h | h | h <;> subst h <;> exact ⟨_, rfl⟩

theorem uart_init_databits_valid (k : uart_defs) (ctrl : Nat) (databits : uart_databits_t)
    (h : databits = .UART_DATABITS_5 ∨ databits = .UART_DATABITS_6 ∨
      databits = .UART_DATABITS_7 ∨ databits = .UART_DATABITS_8) :
    ∃ c, uart_init_databits k ctrl databits = some c := by
  rcases h with h | h | h | h <;> subst h <;> exact ⟨_, rfl⟩

/-- The register block of the port after a successful `uart_init`, in terms of
the block before the call and the line-control value `ctrl` the two `switch`
statements computed. -/
theorem uart_init_ok_block (k : uart_defs) (s : machine_t) (i b ctrl : Nat)
    (sb : uart_stopbits_t) (cb : uart_callback_fn_t) :
    (uart_init_steps k s i b ctrl sb cb).uart_base i =
    { s.uart_base i with
      CTL_R := 0 ||| ((k.UART_CTL_RXE ||| k.UART_CTL_TXE) ||| k.UART_CTL_UARTEN),
      IBRD_R := baud_int k b / 64,
      FBRD_R := baud_int k b % 64,
      LCRH_R := if sb = .UART_STOPBITS_2 then ctrl ||| k.UART_LCRH_STP2 else ctrl,
      IM_R := if cb ≠ NULL then (s.uart_base i).IM_R ||| (k.UART_IM_RXIM ||| k.UART_IM_RTIM)
        else (s.uart_base i).IM_R &&& not32 (k.UART_IM_RXIM ||| k.UART_IM_RTIM) } := by
  unfold uart_init_steps
  rw [uart_init_enable_block, uart_init_interrupts_block, uart_init_line_control_block,
    uart_init_set_baud_block, uart_init_disable_block]

/-- The callback table after a successful `uart_init`: the slot of the port
holds the callback argument (null included), every other slot is as before. -/
theorem uart_init_ok_fn_table (k : uart_defs) (s : machine_t) (i b ctrl : Nat)
    (sb : uart_stopbits_t) (cb : uart_callback_fn_t) :
    (uart_init_steps k s i b ctrl sb cb).interrupt_fn_table =
      Function.update s.interrupt_fn_table i cb := by
  unfold uart_init_steps
  by_cases h : cb = NULL
  · simp [uart_init_enable, uart_init_interrupts, h, machine_t.set_uart, disable_interrupt,
      uart_init_line_control, uart_init_set_baud, uart_init_disable]
  · simp [uart_init_enable, uart_init_interrupts, h, machine_t.set_uart, enable_interrupt,
      uart_init_line_control, uart_init_set_baud, uart_init_disable]

/-- The interrupt controller after a successful `uart_init`: the line of the
port is enabled exactly when a callback was given, every other line is as
before. -/
theorem uart_init_ok_interrupt_enabled (k : uart_defs) (s : machine_t) (i b ctrl : Nat)
    (sb : uart_stopbits_t) (cb : uart_callback_fn_t) :
    (uart_init_steps k s i b ctrl sb cb).interrupt_enabled =
      Function.update s.interrupt_enabled (uart_int_map i) (decide (cb ≠ NULL)) := by
  unfold uart_init_steps
  by_cases h : cb = NULL
  · simp [uart_init_enable, uart_init_interrupts, h, machine_t.set_uart, disable_interrupt,
      uart_init_line_control, uart_init_set_baud, uart_init_disable]
  · simp [uart_init_enable, uart_init_interrupts, h, machine_t.set_uart, enable_interrupt,
      uart_init_line_control, uart_init_set_baud, uart_init_disable]

/-- Valid arguments: `uart_init` returns `UART_OK` after performing all its
steps. -/
theorem uart_init_success (k : uart_defs) (s : machine_t) (uart_id baud_rate : Nat)
    (parity : uart_parity_t) (databits : uart_databits_t) (stopbits : uart_stopbits_t)
    (cbfn : uart_callback_fn_t)
    (hid : uart_id < NUM_UARTS) (hB : 0 < baud_rate)
    (hpar : parity = .UART_PARITY_NONE ∨ parity = .UART_PARITY_EVEN ∨
      parity = .UART_PARITY_ODD)
    (hdb : databits = .UART_DATABITS_5 ∨ databits = .UART_DATABITS_6 ∨
      databits = .UART_DATABITS_7 ∨ databits = .UART_DATABITS_8) :
    ∃ ctrl, uart_init k s uart_id baud_rate parity databits stopbits cbfn
      = some (.UART_OK, uart_init_steps k s uart_id baud_rate ctrl stopbits cbfn) := by
  obtain ⟨c1, h1⟩ := uart_init_parity_valid k k.UART_LCRH_FEN parity hpar
  obtain ⟨c2, h2⟩ := uart_init_databits_valid k c1 databits hdb
  refine ⟨c2, ?_⟩
  rw [uart_init_valid_id k s uart_id baud_rate parity databits stopbits cbfn hid
    (Nat.pos_iff_ne_zero.mp hB)]
  simp only [h1, h2]

/-- A zero baud rate on a valid port: the division is undefined. -/
theorem uart_init_zero_baud (k : uart_defs) (s : machine_t) (uart_id : Nat)
    (parity : uart_parity_t) (databits : uart_databits_t) (stopbits : uart_stopbits_t)
    (cbfn : uart_callback_fn_t) (hid : uart_id < NUM_UARTS) :
    uart_init k s uart_id 0 parity databits stopbits cbfn = none := by
  unfold uart_init
  rw [if_neg (Nat.not_le.mpr hid)]
  simp only [if_pos]

/-- The machine a failing `switch` of `uart_init` leaves behind: the clock
gate, the control register and the two divisor registers have been written. -/
theorem uart_init_failure_state (k : uart_defs) (s s1 : machine_t) (uart_id baud_rate : Nat)
    (parity : uart_parity_t) (databits : uart_databits_t) (stopbits : uart_stopbits_t)
    (cbfn : uart_callback_fn_t) (st : uart_status_t)
    (hid : uart_id < NUM_UARTS)
    (hst : st = .UART_ERROR_INVALID_PARITY ∨ st = .UART_ERROR_INVALID_DATABITS)
    (h : uart_init k s uart_id baud_rate parity databits stopbits cbfn = some (st, s1)) :
    s1 = uart_init_set_baud k (uart_init_disable s uart_id) uart_id baud_rate := by
  by_cases hB : baud_rate = 0
  · subst hB
    rw [uart_init_zero_baud k s uart_id parity databits stopbits cbfn hid] at h
    cases h
  · rw [uart_init_valid_id k s uart_id baud_rate parity databits stopbits cbfn hid hB] at h
    cases hp : uart_init_parity k k.UART_LCRH_FEN parity with
    | none =>
      simp only [hp] at h
      cases h
      rfl
    | some c1 =>
      cases hd : uart_init_databits k c1 databits with
      | none =>
        simp only [hp, hd] at h
        cases h
        rfl
      | some c2 =>
        simp only [hp, hd] at h
        cases h
        rcases hst with h0 | h0 <;> cases h0

theorem uart_init_failure_block (k : uart_defs) (s : machine_t) (i b : Nat) :
    (uart_init_set_baud k (uart_init_disable s i) i b).uart_base i =
      { s.uart_base i with
        CTL_R := 0, IBRD_R := baud_int k b / 64, FBRD_R := baud_int k b % 64 } := by
  rw [uart_init_set_baud_block, uart_init_disable_block]

theorem uart_init_failure_other_block (k : uart_defs) (s : machine_t) (i j b : Nat)
    (h : j ≠ i) :
    (uart_init_set_baud k (uart_init_disable s i) i b).uart_base j = s.uart_base j := by
  simp [uart_init_set_baud, uart_init_disable, machine_t.set_uart, Function.update_noteq h]

theorem uart_init_parity_invalid (k : uart_defs) (ctrl : Nat) (parity : uart_parity_t)
    (h : ¬ (parity = .UART_PARITY_NONE ∨ parity = .UART_PARITY_EVEN ∨
      parity = .UART_PARITY_ODD)) :
    uart_init_parity k ctrl parity = none := by
  cases parity with
  | UART_PARITY_NONE => exact absurd (Or.inl rfl) h
  | UART_PARITY_EVEN => exact absurd (Or.inr (Or.inl rfl)) h
  | UART_PARITY_ODD => exact absurd (Or.inr (Or.inr rfl)) h
  | invalid raw => rfl

theorem uart_init_databits_invalid (k : uart_defs) (ctrl : Nat) (databits : uart_databits_t)
    (h : ¬ (databits = .UART_DATABITS_5 ∨ databits = .UART_DATABITS_6 ∨
      databits = .UART_DATABITS_7 ∨ databits = .UART_DATABITS_8)) :
    uart_init_databits k ctrl databits = none := by
  cases databits with
  | UART_DATABITS_5 => exact absurd (Or.inl rfl) h
  | UART_DATABITS_6 => exact absurd (Or.inr (Or.inl rfl)) h
  | UART_DATABITS_7 => exact absurd (Or.inr (Or.inr (Or.inl rfl))) h
  | UART_DATABITS_8 => exact absurd (Or.inr (Or.inr (Or.inr rfl))) h
  | invalid raw => rfl

/-- The status `uart_init` returns for a non-zero baud rate, as a function of
the port, the parity and the data bits alone. -/
theorem uart_init_status (k : uart_defs) (s : machine_t) (uart_id baud_rate : Nat)
    (parity : uart_parity_t) (databits : uart_databits_t) (stopbits : uart_stopbits_t)
    (cbfn : uart_callback_fn_t) (hB : baud_rate ≠ 0) :
    (uart_init k s uart_id baud_rate parity databits stopbits cbfn).map Prod.fst =
      some (if NUM_UARTS ≤ uart_id then uart_status_t.UART_ERROR_INVALID_ID
        else if ¬ (parity = .UART_PARITY_NONE ∨ parity = .UART_PARITY_EVEN ∨
          parity = .UART_PARITY_ODD) then uart_status_t.UART_ERROR_INVALID_PARITY
        else if ¬ (databits = .UART_DATABITS_5 ∨ databits = .UART_DATABITS_6 ∨
          databits = .UART_DATABITS_7 ∨ databits = .UART_DATABITS_8)
          then uart_status_t.UART_ERROR_INVALID_DATABITS
        else uart_status_t.UART_OK) := by
  by_cases hid : NUM_UARTS ≤ uart_id
  · rw [uart_init_invalid_id k s uart_id baud_rate parity databits stopbits cbfn hid,
      if_pos hid]
    rfl
  · rw [uart_init_valid_id k s uart_id baud_rate parity databits stopbits cbfn
      (Nat.not_le.mp hid) hB, if_neg hid]
    by_cases hp : parity = .UART_PARITY_NONE ∨ parity = .UART_PARITY_EVEN ∨
        parity = .UART_PARITY_ODD
    · obtain ⟨c1, h1⟩ := uart_init_parity_valid k k.UART_LCRH_FEN parity hp
      rw [if_neg (not_not.mpr hp)]
      by_cases hd : databits = .UART_DATABITS_5 ∨ databits = .UART_DATABITS_6 ∨
          databits = .UART_DATABITS_7 ∨ databits = .UART_DATABITS_8
      · obtain ⟨c2, h2⟩ := uart_init_databits_valid k c1 databits hd
        rw [if_neg (not_not.mpr hd)]
        simp only [h1, h2, Option.map_some']
      · rw [if_pos hd]
        simp only [h1, uart_init_databits_invalid k c1 databits hd, Option.map_some']
    · rw [if_pos hp]
      simp only [uart_init_parity_invalid k k.UART_LCRH_FEN parity hp, Option.map_some']

/-! ### Bit masks -/

theorem and_not32_and_left (x a b : Nat) (ha : a < 2 ^ 32) :
    (x &&& not32 (a ||| b)) &&& a = 0 := by
  apply Nat.eq_of_testBit_eq
  intro i
  simp only [not32, Nat.testBit_and, Nat.testBit_xor, Nat.testBit_or,
    Nat.testBit_two_pow_sub_one, Nat.zero_testBit]
  by_cases hi : i < 32
  · cases a.testBit i <;> simp [hi]
  · have hbit : a.testBit i = false :=
      Nat.testBit_lt_two_pow
        (lt_of_lt_of_le ha (Nat.pow_le_pow_right (by decide) (Nat.not_lt.mp hi)))
    simp [hbit]

theorem and_not32_and_right (x a b : Nat) (hb : b < 2 ^ 32) :
    (x &&& not32 (a ||| b)) &&& b = 0 := by
  rw [Nat.lor_comm a b]
  exact and_not32_and_left x b a hb

/-! ### uart_read in the two modes -/

/-- A port in interrupt mode: `uart_read` returns `UART_ERROR_INTERRUPT_MODE`
and touches neither the buffer nor the machine. -/
theorem uart_read_interrupt_mode (s : machine_t) (uart_id : Nat) (buffer : Nat → Nat)
    (buffer_size : Nat) (hid : uart_id < NUM_UARTS)
    (hcb : s.interrupt_fn_table uart_id ≠ NULL) :
    uart_read s uart_id buffer buffer_size
      = (.error .UART_ERROR_INTERRUPT_MODE, buffer, s) := by
  unfold uart_read
  rw [if_neg (Nat.not_le.mpr hid), if_pos hcb]

/-- A port in polled mode: `uart_read` runs its loop. -/
theorem uart_read_polled_mode (s : machine_t) (uart_id : Nat) (buffer : Nat → Nat)
    (buffer_size : Nat) (hid : uart_id < NUM_UARTS)
    (hcb : s.interrupt_fn_table uart_id = NULL) :
    uart_read s uart_id buffer buffer_size =
      (.bytes (uart_read_loop (s.uart_base uart_id) buffer 0 buffer_size).1,
        (uart_read_loop (s.uart_base uart_id) buffer 0 buffer_size).2.1,
        s.set_uart uart_id (uart_read_loop (s.uart_base uart_id) buffer 0 buffer_size).2.2) := by
  unfold uart_read
  rw [if_neg (Nat.not_le.mpr hid), if_neg (not_not.mpr hcb)]
  rfl

/-! ### The receive loops -/

theorem uart_read_loop_zero (r : uart_register_map_t) (buffer : Nat → Nat) (read : Nat) :
    uart_read_loop r buffer read 0 = (read, buffer, r) := rfl

theorem uart_read_loop_empty (r : uart_register_map_t) (buffer : Nat → Nat) (read todo : Nat)
    (h : r.rx_fifo = []) :
    uart_read_loop r buffer read todo = (read, buffer, r) := by
  cases todo with
  | zero => rfl
  | succ n => simp [uart_read_loop, FR_R_RXFE_clear, h]

theorem uart_read_loop_cons (r : uart_register_map_t) (buffer : Nat → Nat) (read todo : Nat)
    (x : Nat) (xs : List Nat) (h : r.rx_fifo = x :: xs) :
    uart_read_loop r buffer read (todo + 1) =
      uart_read_loop { r with rx_fifo := xs } (Function.update buffer read (x &&& 0xFF))
        (read + 1) todo := by
  simp [uart_read_loop, FR_R_RXFE_clear, DR_R_read, h]

/-- The number of bytes the loop of `uart_read` reports. -/
theorem uart_read_loop_count (todo : Nat) :
    ∀ (r : uart_register_map_t) (buffer : Nat → Nat) (read : Nat),
      (uart_read_loop r buffer read todo).1 = read + min r.rx_fifo.length todo := by
  induction todo with
  | zero => intro r buffer read; simp [uart_read_loop_zero]
  | succ n ih =>
    intro r buffer read
    cases h : r.rx_fifo with
    | nil => simp [uart_read_loop_empty r buffer read (n + 1) h]
    | cons x xs =>
      rw [uart_read_loop_cons r buffer read n x xs h, ih]
      simp only [List.length_cons]
      omega

/-- The hardware after the loop of `uart_read`: the entries read are gone from
the front of the receive FIFO, nothing else changed. -/
theorem uart_read_loop_block (todo : Nat) :
    ∀ (r : uart_register_map_t) (buffer : Nat → Nat) (read : Nat),
      (uart_read_loop r buffer read todo).2.2 = { r with rx_fifo := r.rx_fifo.drop todo } := by
  induction todo with
  | zero => intro r buffer read; simp [uart_read_loop_zero]
  | succ n ih =>
    intro r buffer read
    cases h : r.rx_fifo with
    | nil =>
      rw [uart_read_loop_empty r buffer read (n + 1) h]
      cases r
      simp_all
    | cons x xs =>
      rw [uart_read_loop_cons r buffer read n x xs h, ih]
      simp

/-- The buffer after the loop of `uart_read`, position by position. -/
theorem uart_read_loop_buffer (todo : Nat) :
    ∀ (r : uart_register_map_t) (buffer : Nat → Nat) (read : Nat) (i : Nat),
      (uart_read_loop r buffer read todo).2.1 i =
        if read ≤ i ∧ i < read + min r.rx_fifo.length todo
        then r.rx_fifo.getD (i - read) 0 &&& 0xFF else buffer i := by
  induction todo with
  | zero =>
    intro r buffer read i
    have h0 : ¬ (read ≤ i ∧ i < read) := by omega
    simp [uart_read_loop_zero, h0]
  | succ n ih =>
    intro r buffer read i
    cases h : r.rx_fifo with
    | nil =>
      have h0 : ¬ (read ≤ i ∧ i < read) := by omega
      simp [uart_read_loop_empty r buffer read (n + 1) h, h0]
    | cons x xs =>
      rw [uart_read_loop_cons r buffer read n x xs h, ih]
      simp only [List.length_cons]
      by_cases h1 : read + 1 ≤ i
      · have h2 : i - read = (i - (read + 1)) + 1 := by omega
        have h3 : read ≤ i := by omega
        have h4 : (i < read + 1 + min xs.length n) ↔ (i < read + min (xs.length + 1) (n + 1)) := by
          omega
        have h7 : i ≠ read := by omega
        simp [h1, h2, h3, h4, Function.update_noteq h7]
      · by_cases h5 : i = read
        · subst h5
          simp
        · have h6 : ¬ read ≤ i := by omega
          simp [h1, h6, Function.update_noteq h5]

theorem drop_min_length (l : List Nat) (n : Nat) :
    l.drop (min l.length n) = l.drop n := by
  rcases Nat.le_total n l.length with h | h
  · rw [Nat.min_eq_right h]
  · rw [Nat.min_eq_left h, List.drop_length, List.drop_eq_nil_of_le h]

/-- Reading off the first `m` positions of a buffer that holds the masked
front of a FIFO. -/
theorem map_range_eq_map_take (f : Nat → Nat) (l : List Nat) (m : Nat) (hm : m ≤ l.length)
    (hf : ∀ i, i < m → f i = l.getD i 0 &&& 0xFF) :
    List.map f (List.range m) = List.map (fun d => d &&& 0xFF) (l.take m) := by
  apply List.ext_getElem
  · simp [Nat.min_eq_left hm]
  · intro i h1 h2
    have hi : i < m := by simpa using h1
    have hl : i < l.length := Nat.lt_of_lt_of_le hi hm
    simp [hf i hi, List.getElem?_eq_getElem hl]

theorem uart_irq_loop_empty (r : uart_register_map_t) (buffer : List Nat)
    (num_chars todo : Nat) (h : r.rx_fifo = []) :
    uart_irq_loop r buffer num_chars todo = (buffer, num_chars, r) := by
  cases todo with
  | zero => rfl
  | succ n => simp [uart_irq_loop, FR_R_RXFE_clear, h]

theorem uart_irq_loop_cons (r : uart_register_map_t) (buffer : List Nat)
    (num_chars todo : Nat) (x : Nat) (xs : List Nat) (h : r.rx_fifo = x :: xs) :
    uart_irq_loop r buffer num_chars (todo + 1) =
      uart_irq_loop { r with rx_fifo := xs } (buffer ++ [x &&& 0xFF]) (num_chars + 1) todo := by
  simp [uart_irq_loop, FR_R_RXFE_clear, DR_R_read, h]

/-- The loop of `uart_irq`: the bytes stored, their number and the hardware
afterwards. -/
theorem uart_irq_loop_eq (todo : Nat) :
    ∀ (r : uart_register_map_t) (buffer : List Nat) (num_chars : Nat),
      uart_irq_loop r buffer num_chars todo =
        (buffer ++ List.map (fun d => d &&& 0xFF) (r.rx_fifo.take todo),
          num_chars + min todo r.rx_fifo.length,
          { r with rx_fifo := r.rx_fifo.drop todo }) := by
  induction todo with
  | zero => intro r buffer num_chars; simp [uart_irq_loop]
  | succ n ih =>
    intro r buffer num_chars
    cases h : r.rx_fifo with
    | nil =>
      rw [uart_irq_loop_empty r buffer num_chars (n + 1) h]
      cases r
      simp_all
    | cons x xs =>
      rw [uart_irq_loop_cons r buffer num_chars n x xs h, ih]
      simp only [List.take_succ_cons, List.map_cons, List.drop_succ_cons, List.length_cons,
        List.append_assoc, List.singleton_append, Prod.mk.injEq, and_true, true_and]
      omega

/-- One run of `uart_irq` on a port with a registered callback: the machine
afterwards. -/
theorem uart_irq_registered (s : machine_t) (uart_id : Nat)
    (hcb : s.interrupt_fn_table uart_id ≠ NULL) :
    uart_irq s uart_id =
      { s.set_uart uart_id { s.uart_base uart_id with
          rx_fifo := (s.uart_base uart_id).rx_fifo.drop RX_IRQ_FIFO_SIZE } with
        callbacks := s.callbacks ++
          [{ fn := s.interrupt_fn_table uart_id, uart_id := uart_id,
             buffer := List.map (fun d => d &&& 0xFF)
               ((s.uart_base uart_id).rx_fifo.take RX_IRQ_FIFO_SIZE),
             num_chars := min RX_IRQ_FIFO_SIZE (s.uart_base uart_id).rx_fifo.length }] } := by
  unfold uart_irq
  rw [if_pos hcb]
  simp only [Nat.sub_zero, uart_irq_loop_eq, List.nil_append, Nat.zero_add]
  rfl

theorem uart_irq_registered_callbacks (s : machine_t) (uart_id : Nat)
    (hcb : s.interrupt_fn_table uart_id ≠ NULL) :
    (uart_irq s uart_id).callbacks = s.callbacks ++
      [{ fn := s.interrupt_fn_table uart_id, uart_id := uart_id,
         buffer := List.map (fun d => d &&& 0xFF) ((s.uart_base uart_id).rx_fifo.take 16),
         num_chars := min 16 (s.uart_base uart_id).rx_fifo.length }] := by
  rw [uart_irq_registered s uart_id hcb]
  rfl

theorem uart_irq_registered_fifo (s : machine_t) (uart_id : Nat)
    (hcb : s.interrupt_fn_table uart_id ≠ NULL) :
    ((uart_irq s uart_id).uart_base uart_id).rx_fifo
      = (s.uart_base uart_id).rx_fifo.drop 16 := by
  rw [uart_irq_registered s uart_id hcb]
  simp only [machine_t.set_uart, Function.update_same]
  rfl

theorem uart_irq_fn_table (s : machine_t) (uart_id : Nat) :
    (uart_irq s uart_id).interrupt_fn_table = s.interrupt_fn_table := by
  unfold uart_irq
  split <;> rfl

/-! ### The transmit loops -/

theorem FR_R_TXFF_clear_free (r : uart_register_map_t) (h : 0 < r.tx_free) :
    FR_R_TXFF_clear r = (true, r) := by
  simp [FR_R_TXFF_clear, h]

theorem FR_R_TXFF_clear_full (r : uart_register_map_t) (h : r.tx_free = 0) :
    FR_R_TXFF_clear r =
      (false, { r with tx_tick := r.tx_tick + 1,
                       tx_free := if r.tx_drain r.tx_tick then 1 else 0 }) := by
  simp [FR_R_TXFF_clear, h]

theorem uart_write_nonblock_loop_full (buffer : Nat → Nat) (r : uart_register_map_t)
    (written todo : Nat) (h : r.tx_free = 0) :
    uart_write_nonblock_loop buffer r written (todo + 1) = (written, (FR_R_TXFF_clear r).2) := by
  simp [uart_write_nonblock_loop, FR_R_TXFF_clear_full r h]

theorem uart_write_nonblock_loop_free (buffer : Nat → Nat) (r : uart_register_map_t)
    (written todo : Nat) (h : 0 < r.tx_free) :
    uart_write_nonblock_loop buffer r written (todo + 1) =
      uart_write_nonblock_loop buffer (DR_R_write r (buffer written)) (written + 1) todo := by
  simp [uart_write_nonblock_loop, FR_R_TXFF_clear_free r h]

/-- The number of bytes the loop of `uart_write_nonblock` reports. -/
theorem uart_write_nonblock_loop_count (buffer : Nat → Nat) (todo : Nat) :
    ∀ (r : uart_register_map_t) (written : Nat),
      (uart_write_nonblock_loop buffer r written todo).1 = written + min todo r.tx_free := by
  induction todo with
  | zero => intro r written; simp [uart_write_nonblock_loop]
  | succ n ih =>
    intro r written
    rcases Nat.eq_zero_or_pos r.tx_free with h | h
    · rw [uart_write_nonblock_loop_full buffer r written n h, h]
      simp
    · rw [uart_write_nonblock_loop_free buffer r written n h, ih]
      simp only [DR_R_write]
      omega

/-- The bytes the loop of `uart_write_nonblock` hands to the transmit data
register. -/
theorem uart_write_nonblock_loop_sent (buffer : Nat → Nat) (todo : Nat) :
    ∀ (r : uart_register_map_t) (written : Nat),
      (uart_write_nonblock_loop buffer r written todo).2.tx_sent =
        r.tx_sent ++ List.map (fun i => buffer (written + i))
          (List.range (min todo r.tx_free)) := by
  induction todo with
  | zero => intro r written; simp [uart_write_nonblock_loop]
  | succ n ih =>
    intro r written
    rcases Nat.eq_zero_or_pos r.tx_free with h | h
    · rw [uart_write_nonblock_loop_full buffer r written n h, h,
        FR_R_TXFF_clear_full r h]
      simp
    · rw [uart_write_nonblock_loop_free buffer r written n h, ih]
      have hmin : min (n + 1) r.tx_free = min n (r.tx_free - 1) + 1 := by omega
      have hfun : (fun i => buffer (written + 1 + i)) = (fun i => buffer (written + (i + 1))) := by
        funext i
        rw [Nat.add_assoc, Nat.add_comm 1 i]
      simp only [DR_R_write, hmin, List.range_succ_eq_map, List.map_cons, List.map_map,
        List.append_assoc, List.singleton_append, Nat.add_zero, hfun]
      rfl

/-- The free slots left after the transmit data register accepted the bytes
of `l`. -/
theorem foldl_DR_R_write_tx_free (l : List Nat) :
    ∀ (r : uart_register_map_t), (List.foldl DR_R_write r l).tx_free = r.tx_free - l.length := by
  induction l with
  | nil => intro r; rfl
  | cons c cs ih =>
    intro r
    rw [List.foldl_cons, ih]
    simp only [DR_R_write, List.length_cons]
    omega

theorem uart_write_loop_done (buffer : Nat → Nat) (buffer_size fuel : Nat)
    (r : uart_register_map_t) (written : Nat) (hw : ¬ written < buffer_size) :
    uart_write_loop buffer buffer_size (fuel + 1) r written = some r := by
  simp [uart_write_loop, hw]

theorem uart_write_loop_free (buffer : Nat → Nat) (buffer_size fuel : Nat)
    (r : uart_register_map_t) (written : Nat) (hw : written < buffer_size)
    (hf : 0 < r.tx_free) :
    uart_write_loop buffer buffer_size (fuel + 1) r written =
      uart_write_loop buffer buffer_size fuel (DR_R_write r (buffer written)) (written + 1) := by
  simp [uart_write_loop, hw, FR_R_TXFF_clear_free r hf]

theorem uart_write_loop_full (buffer : Nat → Nat) (buffer_size fuel : Nat)
    (r : uart_register_map_t) (written : Nat) (hw : written < buffer_size)
    (hf : r.tx_free = 0) :
    uart_write_loop buffer buffer_size (fuel + 1) r written =
      uart_write_loop buffer buffer_size fuel
        { r with tx_tick := r.tx_tick + 1,
                 tx_free := if r.tx_drain r.tx_tick then 1 else 0 } written := by
  simp [uart_write_loop, hw, FR_R_TXFF_clear_full r hf]

/-- Spinning on a full transmit FIFO: when the transmitter frees a slot `j`
ticks from now, at most `j + 1` iterations of the loop of `uart_write` lead to
hardware with a free slot, and nothing has been sent meanwhile. -/
theorem uart_write_loop_spin (buffer : Nat → Nat) (buffer_size written : Nat)
    (hw : written < buffer_size) (j : Nat) :
    ∀ (r : uart_register_map_t), r.tx_free = 0 → r.tx_drain (r.tx_tick + j) = true →
      ∃ (c : Nat) (r1 : uart_register_map_t), c ≤ j + 1 ∧ 0 < r1.tx_free ∧
        r1.tx_sent = r.tx_sent ∧ r1.tx_drain = r.tx_drain ∧ r.tx_tick ≤ r1.tx_tick ∧
        ∀ fuel, c ≤ fuel →
          uart_write_loop buffer buffer_size fuel r written =
            uart_write_loop buffer buffer_size (fuel - c) r1 written := by
  induction j with
  | zero =>
    intro r hf hd
    rw [Nat.add_zero] at hd
    refine ⟨1, { r with tx_tick := r.tx_tick + 1,
                        tx_free := if r.tx_drain r.tx_tick then 1 else 0 },
      Nat.le_refl _, ?_, rfl, rfl, Nat.le_succ _, ?_⟩
    · simp [hd]
    · intro fuel hfuel
      obtain ⟨f, rfl⟩ : ∃ f, fuel = f + 1 := ⟨fuel - 1, by omega⟩
      rw [uart_write_loop_full buffer buffer_size f r written hw hf]
      rfl
  | succ n ih =>
    intro r hf hd
    by_cases hnow : r.tx_drain r.tx_tick = true
    · refine ⟨1, { r with tx_tick := r.tx_tick + 1,
                          tx_free := if r.tx_drain r.tx_tick then 1 else 0 },
        by omega, ?_, rfl, rfl, Nat.le_succ _, ?_⟩
      · simp [hnow]
      · intro fuel hfuel
        obtain ⟨f, rfl⟩ : ∃ f, fuel = f + 1 := ⟨fuel - 1, by omega⟩
        rw [uart_write_loop_full buffer buffer_size f r written hw hf]
        rfl
    · have hd2 : r.tx_drain (r.tx_tick + 1 + n) = true := by
        rw [Nat.add_assoc, Nat.add_comm 1 n]
        exact hd
      obtain ⟨c, r1, hc, hfree, hsent, hdrain, htick, hloop⟩ :=
        ih { r with tx_tick := r.tx_tick + 1,
                    tx_free := if r.tx_drain r.tx_tick then 1 else 0 }
          (by simp [hnow]) hd2
      refine ⟨c + 1, r1, by omega, hfree, hsent, hdrain, ?_, ?_⟩
      · exact Nat.le_trans (Nat.le_succ _) htick
      · intro fuel hfuel
        obtain ⟨f, rfl⟩ : ∃ f, fuel = f + 1 := ⟨fuel - 1, by omega⟩
        rw [uart_write_loop_full buffer buffer_size f r written hw hf, hloop f (by omega),
          Nat.add_sub_add_right]

/-- The loop of `uart_write` under a transmitter that frees a slot within
every `K` ticks: with `m` bytes still to write, `m * (K + 1) + 1` iterations
suffice, and exactly those `m` bytes are then sent, in order. -/
theorem uart_write_loop_terminates (buffer : Nat → Nat) (buffer_size K : Nat) (m : Nat) :
    ∀ (r : uart_register_map_t) (written fuel : Nat), written + m = buffer_size →
      (∀ t, r.tx_tick ≤ t → ∃ j, j < K ∧ r.tx_drain (t + j) = true) →
      m * (K + 1) + 1 ≤ fuel →
      ∃ r1, uart_write_loop buffer buffer_size fuel r written = some r1 ∧
        r1.tx_sent = r.tx_sent ++ List.map (fun i => buffer (written + i)) (List.range m) := by
  induction m with
  | zero =>
    intro r written fuel hwm _ hfuel
    obtain ⟨f, rfl⟩ : ∃ f, fuel = f + 1 := ⟨fuel - 1, by omega⟩
    refine ⟨r, uart_write_loop_done buffer buffer_size f r written (by omega), ?_⟩
    simp
  | succ n ih =>
    have hfree : ∀ (r : uart_register_map_t) (written fuel : Nat),
        written + (n + 1) = buffer_size →
        (∀ t, r.tx_tick ≤ t → ∃ j, j < K ∧ r.tx_drain (t + j) = true) →
        0 < r.tx_free → n * (K + 1) + 2 ≤ fuel →
        ∃ r1, uart_write_loop buffer buffer_size fuel r written = some r1 ∧
          r1.tx_sent = r.tx_sent ++
            List.map (fun i => buffer (written + i)) (List.range (n + 1)) := by
      intro r written fuel hwm hdr hf hfuel
      obtain ⟨f, rfl⟩ : ∃ f, fuel = f + 1 := ⟨fuel - 1, by omega⟩
      obtain ⟨r1, hloop, hsent⟩ := ih (DR_R_write r (buffer written)) (written + 1) f
        (by omega) hdr (by omega)
      refine ⟨r1, ?_, ?_⟩
      · rw [uart_write_loop_free buffer buffer_size f r written (by omega) hf]
        exact hloop
      · have hfun : (fun i => buffer (written + 1 + i))
            = (fun i => buffer (written + (i + 1))) := by
          funext i
          rw [Nat.add_assoc, Nat.add_comm 1 i]
        rw [hsent]
        simp only [DR_R_write, List.range_succ_eq_map, List.map_cons, List.map_map,
          List.append_assoc, List.singleton_append, Nat.add_zero, hfun]
        rfl
    intro r written fuel hwm hdr hfuel
    have hK : (n + 1) * (K + 1) = n * (K + 1) + K + 1 := by ring
    rcases Nat.eq_zero_or_pos r.tx_free with hf | hf
    · obtain ⟨j, hj, hd⟩ := hdr r.tx_tick (Nat.le_refl _)
      obtain ⟨c, r1, hc, hfree1, hsent1, hdrain1, htick1, hloop1⟩ :=
        uart_write_loop_spin buffer buffer_size written (by omega) j r hf hd
      have hdr1 : ∀ t, r1.tx_tick ≤ t → ∃ j, j < K ∧ r1.tx_drain (t + j) = true := by
        intro t ht
        rw [hdrain1]
        exact hdr t (Nat.le_trans htick1 ht)
      obtain ⟨r2, hloop2, hsent2⟩ := hfree r1 written (fuel - c) hwm hdr1 hfree1 (by omega)
      refine ⟨r2, ?_, ?_⟩
      · rw [hloop1 fuel (by omega)]
        exact hloop2
      · rw [hsent2, hsent1]
    · exact hfree r written fuel hwm hdr hf (by omega)

/-- The loop of `uart_write` on a transmitter that never frees a slot: with a
full FIFO and a byte still to write, no number of iterations is enough. -/
theorem uart_write_loop_wedged (buffer : Nat → Nat) (buffer_size written : Nat)
    (hw : written < buffer_size) (fuel : Nat) :
    ∀ (r : uart_register_map_t), r.tx_free = 0 → (∀ t, r.tx_drain t = false) →
      uart_write_loop buffer buffer_size fuel r written = none := by
  induction fuel with
  | zero => intro r _ _; rfl
  | succ f ih =>
    intro r hf hd
    rw [uart_write_loop_full buffer buffer_size f r written hw hf]
    apply ih
    · simp [hd]
    · exact hd

/-! ### Rounding -/

theorem round_half_up_nat (a b : Nat) (hb : 0 < b) :
    (a / b + 1) / 2 = (a + b) / (2 * b) := by
  rw [← Nat.add_div_right a hb, Nat.div_div_eq_div_mul, Nat.mul_comm b 2]

theorem round_half_up_floor (a b : Nat) (hb : 0 < b) :
    (((a + b) / (2 * b) : Nat) : ℤ) = ⌊(a : ℚ) / (2 * b) + 1 / 2⌋ := by
  have hbq : (0 : ℚ) < b := by exact_mod_cast hb
  have hx : (a : ℚ) / (2 * b) + 1 / 2 = ((a + b : Nat) : ℚ) / ((2 * b : Nat) : ℚ) := by
    push_cast
    field_simp
    ring
  rw [hx]
  symm
  rw [Int.floor_eq_iff]
  have hpos : (0 : ℚ) < ((2 * b : Nat) : ℚ) := by exact_mod_cast (by omega : 0 < 2 * b)
  constructor
  · rw [le_div_iff₀ hpos]
    have hle := Nat.div_mul_le_self (a + b) (2 * b)
    exact_mod_cast hle
  · rw [div_lt_iff₀ hpos]
    have hlt := Nat.lt_div_mul_add (a := a + b) (b := 2 * b) (by omega)
    have h3 : a + b < ((a + b) / (2 * b) + 1) * (2 * b) := by
      rw [Nat.add_mul, Nat.one_mul]
      exact hlt
    exact_mod_cast h3

/-! ### The line-control value -/

theorem uart_init_parity_eq (k : uart_defs) (ctrl c1 : Nat) (parity : uart_parity_t)
    (h : uart_init_parity k ctrl parity = some c1) :
    c1 = ctrl ||| line_control_parity_bits k parity := by
  cases parity with
  | UART_PARITY_NONE =>
    simp only [uart_init_parity, Option.some.injEq] at h
    simp [line_control_parity_bits, ← h]
  | UART_PARITY_EVEN =>
    simp only [uart_init_parity, Option.some.injEq] at h
    rw [← h, line_control_parity_bits, Nat.lor_assoc, Nat.lor_comm k.UART_LCRH_EPS]
  | UART_PARITY_ODD =>
    simp only [uart_init_parity, Option.some.injEq] at h
    rw [← h, line_control_parity_bits]
  | invalid raw => simp [uart_init_parity] at h

theorem uart_init_databits_eq (k : uart_defs) (ctrl c2 : Nat) (databits : uart_databits_t)
    (h : uart_init_databits k ctrl databits = some c2) :
    c2 = ctrl ||| line_control_word_length k databits := by
  cases databits with
  | invalid raw => simp [uart_init_databits] at h
  | _ =>
    simp only [uart_init_databits, Option.some.injEq] at h
    rw [← h, line_control_word_length]

/-- Valid arguments: `uart_init` returns `UART_OK` after performing all its
steps, with the line-control value the two `switch` statements build. -/
theorem uart_init_success_ctrl (k : uart_defs) (s : machine_t) (uart_id baud_rate : Nat)
    (parity : uart_parity_t) (databits : uart_databits_t) (stopbits : uart_stopbits_t)
    (cbfn : uart_callback_fn_t)
    (hid : uart_id < NUM_UARTS) (hB : 0 < baud_rate)
    (hpar : parity = .UART_PARITY_NONE ∨ parity = .UART_PARITY_EVEN ∨
      parity = .UART_PARITY_ODD)
    (hdb : databits = .UART_DATABITS_5 ∨ databits = .UART_DATABITS_6 ∨
      databits = .UART_DATABITS_7 ∨ databits = .UART_DATABITS_8) :
    uart_init k s uart_id baud_rate parity databits stopbits cbfn
      = some (.UART_OK, uart_init_steps k s uart_id baud_rate
          ((k.UART_LCRH_FEN ||| line_control_parity_bits k parity) |||
            line_control_word_length k databits) stopbits cbfn) := by
  obtain ⟨c1, h1⟩ := uart_init_parity_valid k k.UART_LCRH_FEN parity hpar
  obtain ⟨c2, h2⟩ := uart_init_databits_valid k c1 databits hdb
  rw [uart_init_valid_id k s uart_id baud_rate parity databits stopbits cbfn hid
    (Nat.pos_iff_ne_zero.mp hB)]
  simp only [h1, h2]
  rw [uart_init_databits_eq k c1 c2 databits h2, uart_init_parity_eq k _ c1 parity h1]

theorem uart_init_steps_line_control (k : uart_defs) (s : machine_t) (i b ctrl : Nat)
    (sb : uart_stopbits_t) (cb : uart_callback_fn_t) :
    ((uart_init_steps k s i b ctrl sb cb).uart_base i).LCRH_R =
      ctrl ||| (if sb = .UART_STOPBITS_2 then k.UART_LCRH_STP2 else 0) := by
  rw [uart_init_ok_block]
  by_cases h : sb = .UART_STOPBITS_2 <;> simp [h]

/-! ### Setting and clearing mask bits -/

theorem or_and_left_self (x a b : Nat) : (x ||| (a ||| b)) &&& a = a := by
  apply Nat.eq_of_testBit_eq
  intro i
  simp only [Nat.testBit_and, Nat.testBit_or]
  cases a.testBit i <;> simp

theorem or_and_right_self (x a b : Nat) : (x ||| (a ||| b)) &&& b = b := by
  rw [Nat.lor_comm a b]
  exact or_and_left_self x b a

theorem testBit_or_of_not_mask (x c i : Nat) (h : c.testBit i = false) :
    (x ||| c).testBit i = x.testBit i := by
  simp [Nat.testBit_or, h]

theorem testBit_and_not32_of_not_mask (x c i : Nat) (hi : i < 32) (h : c.testBit i = false) :
    (x &&& not32 c).testBit i = x.testBit i := by
  unfold not32
  rw [Nat.testBit_and, Nat.testBit_xor, Nat.testBit_two_pow_sub_one, h]
  simp [hi]

/-! ### What the transfer routines leave alone -/

theorem uart_read_fn_table (s : machine_t) (uart_id : Nat) (buffer : Nat → Nat)
    (buffer_size : Nat) :
    (uart_read s uart_id buffer buffer_size).2.2.interrupt_fn_table
      = s.interrupt_fn_table := by
  unfold uart_read
  split
  · rfl
  · split <;> rfl

theorem uart_write_fn_table (fuel : Nat) (s s1 : machine_t) (uart_id : Nat)
    (buffer : Nat → Nat) (buffer_size : Nat) (st : uart_status_t)
    (h : uart_write fuel s uart_id buffer buffer_size = some (st, s1)) :
    s1.interrupt_fn_table = s.interrupt_fn_table := by
  unfold uart_write at h
  split at h
  · cases h
    rfl
  · split at h
    · cases h
    · cases h
      rfl

theorem uart_write_str_fn_table (fuel : Nat) (s s1 : machine_t) (uart_id : Nat)
    (sz_buffer : Nat → Nat) (st : uart_status_t)
    (h : uart_write_str fuel s uart_id sz_buffer = some (st, s1)) :
    s1.interrupt_fn_table = s.interrupt_fn_table := by
  unfold uart_write_str at h
  split at h
  · cases h
  · exact uart_write_fn_table fuel s s1 uart_id sz_buffer _ st h

theorem uart_write_nonblock_fn_table (s : machine_t) (uart_id : Nat) (buffer : Nat → Nat)
    (buffer_size : Nat) :
    (uart_write_nonblock s uart_id buffer buffer_size).2.interrupt_fn_table
      = s.interrupt_fn_table := by
  unfold uart_write_nonblock
  split <;> rfl

theorem driver_call_apply_fn_table (s s1 : machine_t) (c : driver_call)
    (h : c.apply s = some s1) : s1.interrupt_fn_table = s.interrupt_fn_table := by
  cases c with
  | read uart_id buffer buffer_size =>
    simp only [driver_call.apply, Option.some.injEq] at h
    rw [← h]
    exact uart_read_fn_table s uart_id buffer buffer_size
  | write fuel uart_id buffer buffer_size =>
    simp only [driver_call.apply, Option.map_eq_some', Prod.exists, exists_eq_right] at h
    obtain ⟨st, h⟩ := h
    exact uart_write_fn_table fuel s s1 uart_id buffer buffer_size st h
  | write_str fuel uart_id sz_buffer =>
    simp only [driver_call.apply, Option.map_eq_some', Prod.exists, exists_eq_right] at h
    obtain ⟨st, h⟩ := h
    exact uart_write_str_fn_table fuel s s1 uart_id sz_buffer st h
  | write_nonblock uart_id buffer buffer_size =>
    simp only [driver_call.apply, Option.some.injEq] at h
    rw [← h]
    exact uart_write_nonblock_fn_table s uart_id buffer buffer_size
  | irq uart_id =>
    simp only [driver_call.apply, Option.some.injEq] at h
    rw [← h]
    exact uart_irq_fn_table s uart_id

theorem apply_calls_fn_table (calls : List driver_call) :
    ∀ (s s1 : machine_t), apply_calls s calls = some s1 →
      s1.interrupt_fn_table = s.interrupt_fn_table := by
  induction calls with
  | nil =>
    intro s s1 h
    simp only [apply_calls, Option.some.injEq] at h
    rw [h]
  | cons c cs ih =>
    intro s s1 h
    cases hc : c.apply s with
    | none => simp [apply_calls, hc] at h
    | some s2 =>
      simp only [apply_calls, hc] at h
      rw [ih s2 s1 h, driver_call_apply_fn_table s s2 c hc]

/-! ### The clock gate and the interrupt lines -/

theorem testBit_or_shift_self (x i : Nat) : (x ||| (1 <<< i)).testBit i = true := by
  rw [Nat.testBit_or, Nat.one_shiftLeft, Nat.testBit_two_pow_self, Bool.or_true]

theorem testBit_or_shift_other (x i j : Nat) (h : j ≠ i) :
    (x ||| (1 <<< i)).testBit j = x.testBit j := by
  rw [Nat.testBit_or, Nat.one_shiftLeft, Nat.testBit_two_pow]
  simp [Ne.symm h]

/-- Distinct UARTs have distinct interrupt lines. -/
theorem uart_int_map_injective (p q : Nat) (hp : p < NUM_UARTS) (hq : q < NUM_UARTS)
    (h : uart_int_map p = uart_int_map q) : p = q := by
  unfold NUM_UARTS at hp hq
  interval_cases p <;> interval_cases q <;> first | rfl | (exact absurd h (by decide))

theorem uart_init_failure_clock_gate (k : uart_defs) (s : machine_t) (i b : Nat) :
    (uart_init_set_baud k (uart_init_disable s i) i b).SYSCTL_RCGCUART_R
      = s.SYSCTL_RCGCUART_R ||| (1 <<< i) := rfl

theorem uart_init_ok_clock_gate (k : uart_defs) (s : machine_t) (i b ctrl : Nat)
    (sb : uart_stopbits_t) (cb : uart_callback_fn_t) :
    (uart_init_steps k s i b ctrl sb cb).SYSCTL_RCGCUART_R
      = s.SYSCTL_RCGCUART_R ||| (1 <<< i) := by
  unfold uart_init_steps
  by_cases h : cb = NULL
  · simp [uart_init_enable, uart_init_interrupts, h, machine_t.set_uart, disable_interrupt,
      uart_init_line_control, uart_init_set_baud, uart_init_disable]
  · simp [uart_init_enable, uart_init_interrupts, h, machine_t.set_uart, enable_interrupt,
      uart_init_line_control, uart_init_set_baud, uart_init_disable]

theorem uart_init_ok_other_block (k : uart_defs) (s : machine_t) (i j b ctrl : Nat)
    (sb : uart_stopbits_t) (cb : uart_callback_fn_t) (h : j ≠ i) :
    (uart_init_steps k s i b ctrl sb cb).uart_base j = s.uart_base j := by
  unfold uart_init_steps
  by_cases hc : cb = NULL
  · simp [uart_init_enable, uart_init_interrupts, hc, machine_t.set_uart, disable_interrupt,
      uart_init_line_control, uart_init_set_baud, uart_init_disable, FR_R_write,
      Function.update_noteq h]
  · simp [uart_init_enable, uart_init_interrupts, hc, machine_t.set_uart, enable_interrupt,
      uart_init_line_control, uart_init_set_baud, uart_init_disable, FR_R_write,
      Function.update_noteq h]

/-- The machines a call of `uart_init` on a valid port can return. -/
theorem uart_init_outcomes (k : uart_defs) (s s1 : machine_t) (uart_id baud_rate : Nat)
    (parity : uart_parity_t) (databits : uart_databits_t) (stopbits : uart_stopbits_t)
    (cbfn : uart_callback_fn_t) (st : uart_status_t) (hid : uart_id < NUM_UARTS)
    (h : uart_init k s uart_id baud_rate parity databits stopbits cbfn = some (st, s1)) :
    s1 = uart_init_set_baud k (uart_init_disable s uart_id) uart_id baud_rate ∨
    ∃ ctrl, s1 = uart_init_steps k s uart_id baud_rate ctrl stopbits cbfn := by
  by_cases hB : baud_rate = 0
  · subst hB
    rw [uart_init_zero_baud k s uart_id parity databits stopbits cbfn hid] at h
    cases h
  · rw [uart_init_valid_id k s uart_id baud_rate parity databits stopbits cbfn hid hB] at h
    cases hp : uart_init_parity k k.UART_LCRH_FEN parity with
    | none =>
      simp only [hp] at h
      cases h
      exact Or.inl rfl
    | some c1 =>
      cases hd : uart_init_databits k c1 databits with
      | none =>
        simp only [hp, hd] at h
        cases h
        exact Or.inl rfl
      | some c2 =>
        simp only [hp, hd] at h
        cases h
        exact Or.inr ⟨c2, rfl⟩

/-! ### One port at a time -/

theorem port_unchanged_refl (s : machine_t) (q : Nat) : port_unchanged s s q :=
  ⟨rfl, rfl, rfl, rfl⟩

theorem port_unchanged_set_uart (s : machine_t) (p q : Nat) (r : uart_register_map_t)
    (h : q ≠ p) : port_unchanged s (s.set_uart p r) q :=
  ⟨set_uart_uart_base_other s p q r h, rfl, rfl, rfl⟩

theorem uart_read_machine (s : machine_t) (uart_id : Nat) (buffer : Nat → Nat)
    (buffer_size : Nat) :
    (uart_read s uart_id buffer buffer_size).2.2 = s ∨
    ∃ r, (uart_read s uart_id buffer buffer_size).2.2 = s.set_uart uart_id r := by
  unfold uart_read
  split
  · exact Or.inl rfl
  · split
    · exact Or.inl rfl
    · exact Or.inr ⟨_, rfl⟩

theorem uart_write_machine (fuel : Nat) (s s1 : machine_t) (uart_id : Nat)
    (buffer : Nat → Nat) (buffer_size : Nat) (st : uart_status_t)
    (h : uart_write fuel s uart_id buffer buffer_size = some (st, s1)) :
    s1 = s ∨ ∃ r, s1 = s.set_uart uart_id r := by
  unfold uart_write at h
  split at h
  · cases h
    exact Or.inl rfl
  · split at h
    · cases h
    · cases h
      exact Or.inr ⟨_, rfl⟩

theorem uart_write_nonblock_machine (s : machine_t) (uart_id : Nat) (buffer : Nat → Nat)
    (buffer_size : Nat) :
    (uart_write_nonblock s uart_id buffer buffer_size).2 = s ∨
    ∃ r, (uart_write_nonblock s uart_id buffer buffer_size).2 = s.set_uart uart_id r := by
  unfold uart_write_nonblock
  split
  · exact Or.inl rfl
  · exact Or.inr ⟨_, rfl⟩

theorem port_unchanged_of_machine (s s1 : machine_t) (p q : Nat) (h : q ≠ p)
    (hm : s1 = s ∨ ∃ r, s1 = s.set_uart p r) : port_unchanged s s1 q := by
  rcases hm with hm | ⟨r, hm⟩
  · rw [hm]
    exact port_unchanged_refl s q
  · rw [hm]
    exact port_unchanged_set_uart s p q r h

theorem port_unchanged_uart_irq (s : machine_t) (p q : Nat) (h : q ≠ p) :
    port_unchanged s (uart_irq s p) q := by
  unfold uart_irq
  split
  · exact ⟨set_uart_uart_base_other s p q _ h, rfl, rfl, rfl⟩
  · exact port_unchanged_refl s q

theorem port_unchanged_uart_init_failure (k : uart_defs) (s : machine_t) (p q b : Nat)
    (h : q ≠ p) :
    port_unchanged s (uart_init_set_baud k (uart_init_disable s p) p b) q :=
  ⟨uart_init_failure_other_block k s p q b h, rfl, rfl,
    by rw [uart_init_failure_clock_gate]; exact testBit_or_shift_other _ _ _ h⟩

theorem port_unchanged_uart_init_steps (k : uart_defs) (s : machine_t) (p q b ctrl : Nat)
    (sb : uart_stopbits_t) (cb : uart_callback_fn_t) (h : q ≠ p)
    (hline : uart_int_map q ≠ uart_int_map p) :
    port_unchanged s (uart_init_steps k s p b ctrl sb cb) q := by
  refine ⟨uart_init_ok_other_block k s p q b ctrl sb cb h, ?_, ?_, ?_⟩
  · rw [uart_init_ok_fn_table, Function.update_noteq h]
  · rw [uart_init_ok_interrupt_enabled, Function.update_noteq hline]
  · rw [uart_init_ok_clock_gate]
    exact testBit_or_shift_other _ _ _ h

/-! ### The claims -/

/-- C1: for every valid port, valid parity, valid data bits and baud rate
`B > 0` (the product `CLOCK_RATE * 8` fitting the 32-bit word), `uart_init`
succeeds, the integer-divisor register holds `x / 64` and the fractional-divisor
register holds `x % 64`, where `x = ((C * 8) / B + 1) / 2`; for `C = 16000000`
and `B = 9600`, `x = 6667`, the registers hold 104 and 11. -/
theorem uart_init_baud_divisor (k : uart_defs) (s : machine_t) (uart_id baud_rate : Nat)
    (parity : uart_parity_t) (databits : uart_databits_t) (stopbits : uart_stopbits_t)
    (cbfn : uart_callback_fn_t)
    (hid : uart_id < NUM_UARTS) (hB : 0 < baud_rate) (hclk : k.CLOCK_RATE * 8 < 2 ^ 32)
    (hpar : parity = .UART_PARITY_NONE ∨ parity = .UART_PARITY_EVEN ∨
      parity = .UART_PARITY_ODD)
    (hdb : databits = .UART_DATABITS_5 ∨ databits = .UART_DATABITS_6 ∨
      databits = .UART_DATABITS_7 ∨ databits = .UART_DATABITS_8) :
    ∃ s1, uart_init k s uart_id baud_rate parity databits stopbits cbfn
        = some (.UART_OK, s1) ∧
      (s1.uart_base uart_id).IBRD_R = (((k.CLOCK_RATE * 8) / baud_rate + 1) / 2) / 64 ∧
      (s1.uart_base uart_id).FBRD_R = (((k.CLOCK_RATE * 8) / baud_rate + 1) / 2) % 64 ∧
      (k.CLOCK_RATE = 16000000 → baud_rate = 9600 →
        ((k.CLOCK_RATE * 8) / baud_rate + 1) / 2 = 6667 ∧
        (s1.uart_base uart_id).IBRD_R = 104 ∧ (s1.uart_base uart_id).FBRD_R = 11) := by
  obtain ⟨c1, h1⟩ := uart_init_parity_valid k k.UART_LCRH_FEN parity hpar
  obtain ⟨c2, h2⟩ := uart_init_databits_valid k c1 databits hdb
  have hx : baud_int k baud_rate = ((k.CLOCK_RATE * 8) / baud_rate + 1) / 2 := by
    unfold baud_int
    rw [Nat.mod_eq_of_lt hclk]
  rw [uart_init_valid_id k s uart_id baud_rate parity databits stopbits cbfn hid
    (Nat.pos_iff_ne_zero.mp hB)]
  simp only [h1, h2]
  refine ⟨_, rfl, ?_, ?_, ?_⟩
  · rw [uart_init_ok_block, ← hx]
  · rw [uart_init_ok_block, ← hx]
  · intro hC hb
    rw [uart_init_ok_block]
    subst hb
    simp only [baud_int, hC]
    norm_num

/-- C1, worked example: UART 0 at 9600 baud, 8 data bits, no parity, on the
16 MHz example clock. -/
theorem uart_init_baud_divisor_witness :
    ∃ s1, uart_init example_defs (example_machine 0 0 [] 16 0 NULL) 0 9600
        .UART_PARITY_NONE .UART_DATABITS_8 .UART_STOPBITS_1 NULL = some (.UART_OK, s1) ∧
      (s1.uart_base 0).IBRD_R = (((example_defs.CLOCK_RATE * 8) / 9600 + 1) / 2) / 64 ∧
      (s1.uart_base 0).FBRD_R = (((example_defs.CLOCK_RATE * 8) / 9600 + 1) / 2) % 64 ∧
      (example_defs.CLOCK_RATE = 16000000 → 9600 = 9600 →
        ((example_defs.CLOCK_RATE * 8) / 9600 + 1) / 2 = 6667 ∧
        (s1.uart_base 0).IBRD_R = 104 ∧ (s1.uart_base 0).FBRD_R = 11) :=
  uart_init_baud_divisor example_defs (example_machine 0 0 [] 16 0 NULL) 0 9600
    .UART_PARITY_NONE .UART_DATABITS_8 .UART_STOPBITS_1 NULL (by decide) (by decide)
    (by decide) (Or.inl rfl) (Or.inr (Or.inr (Or.inr rfl)))

/-- C2, counterexample: UART 0 is enabled (control register 0x301), its clock
gate is closed and its divisor registers are zero.  `uart_init` with a parity
that is none of None, Even, Odd returns `UART_ERROR_INVALID_PARITY`, and the
state is not as it was before the call: the control register is 0, the clock
gate bit is set and the divisor registers hold 104 and 11. -/
theorem uart_init_invalid_parity_writes_registers :
    ∃ s1, uart_init example_defs (example_machine 0x301 0 [] 16 0 NULL) 0 9600
        (.invalid 7) .UART_DATABITS_8 .UART_STOPBITS_1 NULL
        = some (.UART_ERROR_INVALID_PARITY, s1) ∧
      ((example_machine 0x301 0 [] 16 0 NULL).uart_base 0).CTL_R = 0x301 ∧
      (s1.uart_base 0).CTL_R = 0 ∧
      (example_machine 0x301 0 [] 16 0 NULL).SYSCTL_RCGCUART_R = 0 ∧
      s1.SYSCTL_RCGCUART_R = 1 ∧
      ((example_machine 0x301 0 [] 16 0 NULL).uart_base 0).IBRD_R = 0 ∧
      (s1.uart_base 0).IBRD_R = 104 ∧
      ((example_machine 0x301 0 [] 16 0 NULL).uart_base 0).FBRD_R = 0 ∧
      (s1.uart_base 0).FBRD_R = 11 :=
  ⟨_, rfl, rfl, rfl, rfl, rfl, rfl, by decide, rfl, by decide⟩

/-- C2, amended: for every valid port and every prior state, when `uart_init`
fails with `UART_ERROR_INVALID_PARITY` or `UART_ERROR_INVALID_DATABITS` it
returns before writing the line-control register, the flag register, the
interrupt mask, any interrupt-line enable or the callback table: the
line-control register, the interrupt mask and the FIFO state behind the flag
register of the port, every interrupt-line enable, every callback slot, the
callback log and the register block of every other port are exactly as they
were before the call. -/
theorem uart_init_failure_preserves (k : uart_defs) (s s1 : machine_t)
    (uart_id baud_rate : Nat) (parity : uart_parity_t) (databits : uart_databits_t)
    (stopbits : uart_stopbits_t) (cbfn : uart_callback_fn_t) (st : uart_status_t)
    (hid : uart_id < NUM_UARTS)
    (hst : st = .UART_ERROR_INVALID_PARITY ∨ st = .UART_ERROR_INVALID_DATABITS)
    (h : uart_init k s uart_id baud_rate parity databits stopbits cbfn = some (st, s1)) :
    (s1.uart_base uart_id).LCRH_R = (s.uart_base uart_id).LCRH_R ∧
    (s1.uart_base uart_id).IM_R = (s.uart_base uart_id).IM_R ∧
    (s1.uart_base uart_id).rx_fifo = (s.uart_base uart_id).rx_fifo ∧
    (s1.uart_base uart_id).tx_free = (s.uart_base uart_id).tx_free ∧
    (s1.uart_base uart_id).tx_sent = (s.uart_base uart_id).tx_sent ∧
    FR_R_RXFE_clear (s1.uart_base uart_id) = FR_R_RXFE_clear (s.uart_base uart_id) ∧
    (FR_R_TXFF_clear (s1.uart_base uart_id)).1 = (FR_R_TXFF_clear (s.uart_base uart_id)).1 ∧
    s1.interrupt_enabled = s.interrupt_enabled ∧
    s1.interrupt_fn_table = s.interrupt_fn_table ∧
    s1.callbacks = s.callbacks ∧
    (∀ j, j ≠ uart_id → s1.uart_base j = s.uart_base j) := by
  have hs := uart_init_failure_state k s s1 uart_id baud_rate parity databits stopbits cbfn st
    hid hst h
  subst hs
  refine ⟨?_, ?_, ?_, ?_, ?_, ?_, ?_, rfl, rfl, rfl, ?_⟩
  · rw [uart_init_failure_block]
  · rw [uart_init_failure_block]
  · rw [uart_init_failure_block]
  · rw [uart_init_failure_block]
  · rw [uart_init_failure_block]
  · rw [uart_init_failure_block]
    rfl
  · rw [uart_init_failure_block]
    by_cases hf : 0 < (s.uart_base uart_id).tx_free <;> simp [FR_R_TXFF_clear, hf]
  · intro j hj
    exact uart_init_failure_other_block k s uart_id j baud_rate hj

/-- C2, amended, worked example: the failing call of the counterexample on a
port that is in interrupt mode with mask 0x50. -/
theorem uart_init_failure_preserves_witness :
    ∃ s1, uart_init example_defs (example_machine 0x301 0x50 [65] 16 0 1234) 0 9600
        (.invalid 7) .UART_DATABITS_8 .UART_STOPBITS_1 NULL
        = some (.UART_ERROR_INVALID_PARITY, s1) ∧
      (s1.uart_base 0).IM_R = 0x50 ∧ (s1.uart_base 0).rx_fifo = [65] ∧
      s1.interrupt_fn_table 0 = 1234 :=
  ⟨_, rfl,
    (uart_init_failure_preserves example_defs (example_machine 0x301 0x50 [65] 16 0 1234) _
      0 9600 (.invalid 7) .UART_DATABITS_8 .UART_STOPBITS_1 NULL _ (by decide)
      (Or.inl rfl) rfl).2.1,
    rfl, rfl⟩

/-- C3: for every input with `baud_rate > 0` the status returned by `uart_init`
is decided by validation in the order port, parity, data bits, first failure
wins: `UART_ERROR_INVALID_ID` if the port is not below `NUM_UARTS`; otherwise
`UART_ERROR_INVALID_PARITY` if the parity is none of None, Even, Odd (also when
the data bits are invalid too); otherwise `UART_ERROR_INVALID_DATABITS` if the
data bits are none of 5, 6, 7, 8; otherwise `UART_OK`.  The stop bits and the
callback never affect the status. -/
theorem uart_init_validation_order (k : uart_defs) (s : machine_t) (uart_id baud_rate : Nat)
    (parity : uart_parity_t) (databits : uart_databits_t) (stopbits : uart_stopbits_t)
    (cbfn : uart_callback_fn_t) (hB : 0 < baud_rate) :
    (uart_init k s uart_id baud_rate parity databits stopbits cbfn).map Prod.fst =
      some (if NUM_UARTS ≤ uart_id then uart_status_t.UART_ERROR_INVALID_ID
        else if ¬ (parity = .UART_PARITY_NONE ∨ parity = .UART_PARITY_EVEN ∨
          parity = .UART_PARITY_ODD) then uart_status_t.UART_ERROR_INVALID_PARITY
        else if ¬ (databits = .UART_DATABITS_5 ∨ databits = .UART_DATABITS_6 ∨
          databits = .UART_DATABITS_7 ∨ databits = .UART_DATABITS_8)
          then uart_status_t.UART_ERROR_INVALID_DATABITS
        else uart_status_t.UART_OK) ∧
    ∀ (stopbits2 : uart_stopbits_t) (cbfn2 : uart_callback_fn_t),
      (uart_init k s uart_id baud_rate parity databits stopbits2 cbfn2).map Prod.fst =
        (uart_init k s uart_id baud_rate parity databits stopbits cbfn).map Prod.fst := by
  have hB0 : baud_rate ≠ 0 := Nat.pos_iff_ne_zero.mp hB
  refine ⟨uart_init_status k s uart_id baud_rate parity databits stopbits cbfn hB0, ?_⟩
  intro stopbits2 cbfn2
  rw [uart_init_status k s uart_id baud_rate parity databits stopbits cbfn hB0,
    uart_init_status k s uart_id baud_rate parity databits stopbits2 cbfn2 hB0]

/-- C3, worked example: on a valid port a parity and data bits that are both
invalid give `UART_ERROR_INVALID_PARITY`, the first of the two failures. -/
theorem uart_init_validation_order_witness :
    (uart_init example_defs (example_machine 0 0 [] 16 0 NULL) 3 115200
      (.invalid 9) (.invalid 9) (.other 5) 77).map Prod.fst =
      some uart_status_t.UART_ERROR_INVALID_PARITY :=
  (uart_init_validation_order example_defs (example_machine 0 0 [] 16 0 NULL) 3 115200
    (.invalid 9) (.invalid 9) (.other 5) 77 (by decide)).1

/-- C4: for every port index not below `NUM_UARTS`, every other argument and
every prior state, `uart_init`, `uart_read`, `uart_write` (whatever the
iteration bound) and `uart_write_nonblock` each return
`UART_ERROR_INVALID_ID` and leave the whole machine, and the caller's buffer,
unchanged. -/
theorem invalid_port_no_effect (k : uart_defs) (s : machine_t) (uart_id baud_rate : Nat)
    (parity : uart_parity_t) (databits : uart_databits_t) (stopbits : uart_stopbits_t)
    (cbfn : uart_callback_fn_t) (buffer : Nat → Nat) (buffer_size fuel : Nat)
    (hid : NUM_UARTS ≤ uart_id) :
    uart_init k s uart_id baud_rate parity databits stopbits cbfn
      = some (.UART_ERROR_INVALID_ID, s) ∧
    uart_read s uart_id buffer buffer_size
      = (.error .UART_ERROR_INVALID_ID, buffer, s) ∧
    uart_write fuel s uart_id buffer buffer_size
      = some (.UART_ERROR_INVALID_ID, s) ∧
    uart_write_nonblock s uart_id buffer buffer_size
      = (.error .UART_ERROR_INVALID_ID, s) := by
  refine ⟨uart_init_invalid_id k s uart_id baud_rate parity databits stopbits cbfn hid,
    ?_, ?_, ?_⟩
  · unfold uart_read
    rw [if_pos hid]
  · unfold uart_write
    rw [if_pos hid]
  · unfold uart_write_nonblock
    rw [if_pos hid]

/-- C4, worked example: port 8 of a machine whose FIFOs hold data, with a zero
baud rate and a zero iteration bound. -/
theorem invalid_port_no_effect_witness :
    uart_init example_defs (example_machine 0x301 0x50 [65, 66] 3 0 1234) 8 0
      .UART_PARITY_NONE .UART_DATABITS_8 .UART_STOPBITS_1 1234
      = some (.UART_ERROR_INVALID_ID, example_machine 0x301 0x50 [65, 66] 3 0 1234) ∧
    uart_read (example_machine 0x301 0x50 [65, 66] 3 0 1234) 8 (fun _ => 0) 4
      = (.error .UART_ERROR_INVALID_ID, fun _ => 0,
          example_machine 0x301 0x50 [65, 66] 3 0 1234) ∧
    uart_write 0 (example_machine 0x301 0x50 [65, 66] 3 0 1234) 8 (fun _ => 0) 4
      = some (.UART_ERROR_INVALID_ID, example_machine 0x301 0x50 [65, 66] 3 0 1234) ∧
    uart_write_nonblock (example_machine 0x301 0x50 [65, 66] 3 0 1234) 8 (fun _ => 0) 4
      = (.error .UART_ERROR_INVALID_ID, example_machine 0x301 0x50 [65, 66] 3 0 1234) :=
  invalid_port_no_effect example_defs (example_machine 0x301 0x50 [65, 66] 3 0 1234) 8 0
    .UART_PARITY_NONE .UART_DATABITS_8 .UART_STOPBITS_1 1234 (fun _ => 0) 4 0 (by decide)

/-- C5: for every valid port, after a successful `uart_init` with a non-null
callback, `uart_read` on that port returns `UART_ERROR_INTERRUPT_MODE` for
every buffer and buffer size, and leaves the buffer and the whole machine (so
the receive FIFO too) as they were. -/
theorem uart_read_after_init_with_callback (k : uart_defs) (s : machine_t)
    (uart_id baud_rate : Nat) (parity : uart_parity_t) (databits : uart_databits_t)
    (stopbits : uart_stopbits_t) (cbfn : uart_callback_fn_t)
    (hid : uart_id < NUM_UARTS) (hB : 0 < baud_rate)
    (hpar : parity = .UART_PARITY_NONE ∨ parity = .UART_PARITY_EVEN ∨
      parity = .UART_PARITY_ODD)
    (hdb : databits = .UART_DATABITS_5 ∨ databits = .UART_DATABITS_6 ∨
      databits = .UART_DATABITS_7 ∨ databits = .UART_DATABITS_8)
    (hcb : cbfn ≠ NULL) :
    ∃ s1, uart_init k s uart_id baud_rate parity databits stopbits cbfn
        = some (.UART_OK, s1) ∧
      ∀ (buffer : Nat → Nat) (buffer_size : Nat),
        uart_read s1 uart_id buffer buffer_size
          = (.error .UART_ERROR_INTERRUPT_MODE, buffer, s1) := by
  obtain ⟨ctrl, hok⟩ := uart_init_success k s uart_id baud_rate parity databits stopbits cbfn
    hid hB hpar hdb
  refine ⟨_, hok, ?_⟩
  intro buffer buffer_size
  apply uart_read_interrupt_mode _ _ _ _ hid
  rw [uart_init_ok_fn_table, Function.update_same]
  exact hcb

/-- C5, worked example: UART 2 with three bytes waiting is given callback
1234; a read into a buffer of size 8 is rejected. -/
theorem uart_read_after_init_with_callback_witness :
    ∃ s1, uart_init example_defs (example_machine 0 0 [1, 2, 3] 16 9 NULL) 2 9600
        .UART_PARITY_EVEN .UART_DATABITS_7 .UART_STOPBITS_2 1234 = some (.UART_OK, s1) ∧
      ∀ (buffer : Nat → Nat) (buffer_size : Nat),
        uart_read s1 2 buffer buffer_size
          = (.error .UART_ERROR_INTERRUPT_MODE, buffer, s1) :=
  uart_read_after_init_with_callback example_defs (example_machine 0 0 [1, 2, 3] 16 9 NULL)
    2 9600 .UART_PARITY_EVEN .UART_DATABITS_7 .UART_STOPBITS_2 1234 (by decide) (by decide)
    (Or.inr (Or.inl rfl)) (Or.inr (Or.inr (Or.inl rfl))) (by decide)

/-- C6: for every valid port and valid configurations (the two interrupt-mask
constants being 32-bit words), a successful `uart_init` with a callback
followed by a successful `uart_init` of the same port with no callback leaves
the port in polled mode: after the first call the slot holds the callback and
the interrupt line is enabled; after the second the callback slot is null,
`uart_read` on the port returns a byte count and not
`UART_ERROR_INTERRUPT_MODE`, the interrupt line of the port is disabled, and
the receive and receive-timeout bits of the interrupt mask are clear. -/
theorem uart_init_callback_then_none (k : uart_defs) (s : machine_t) (uart_id : Nat)
    (baud_rate : Nat) (parity : uart_parity_t) (databits : uart_databits_t)
    (stopbits : uart_stopbits_t) (cbfn : uart_callback_fn_t)
    (baud_rate2 : Nat) (parity2 : uart_parity_t) (databits2 : uart_databits_t)
    (stopbits2 : uart_stopbits_t)
    (hid : uart_id < NUM_UARTS) (hB : 0 < baud_rate) (hB2 : 0 < baud_rate2)
    (hpar : parity = .UART_PARITY_NONE ∨ parity = .UART_PARITY_EVEN ∨
      parity = .UART_PARITY_ODD)
    (hdb : databits = .UART_DATABITS_5 ∨ databits = .UART_DATABITS_6 ∨
      databits = .UART_DATABITS_7 ∨ databits = .UART_DATABITS_8)
    (hpar2 : parity2 = .UART_PARITY_NONE ∨ parity2 = .UART_PARITY_EVEN ∨
      parity2 = .UART_PARITY_ODD)
    (hdb2 : databits2 = .UART_DATABITS_5 ∨ databits2 = .UART_DATABITS_6 ∨
      databits2 = .UART_DATABITS_7 ∨ databits2 = .UART_DATABITS_8)
    (hcb : cbfn ≠ NULL)
    (hrx : k.UART_IM_RXIM < 2 ^ 32) (hrt : k.UART_IM_RTIM < 2 ^ 32) :
    ∃ s1 s2,
      uart_init k s uart_id baud_rate parity databits stopbits cbfn = some (.UART_OK, s1) ∧
      uart_init k s1 uart_id baud_rate2 parity2 databits2 stopbits2 NULL
        = some (.UART_OK, s2) ∧
      s1.interrupt_fn_table uart_id = cbfn ∧
      s1.interrupt_enabled (uart_int_map uart_id) = true ∧
      s2.interrupt_fn_table uart_id = NULL ∧
      (∀ (buffer : Nat → Nat) (buffer_size : Nat),
        ∃ count, (uart_read s2 uart_id buffer buffer_size).1 = .bytes count) ∧
      s2.interrupt_enabled (uart_int_map uart_id) = false ∧
      (s2.uart_base uart_id).IM_R &&& k.UART_IM_RXIM = 0 ∧
      (s2.uart_base uart_id).IM_R &&& k.UART_IM_RTIM = 0 := by
  obtain ⟨ctrl, hok⟩ := uart_init_success k s uart_id baud_rate parity databits stopbits cbfn
    hid hB hpar hdb
  obtain ⟨ctrl2, hok2⟩ := uart_init_success k
    (uart_init_steps k s uart_id baud_rate ctrl stopbits cbfn) uart_id baud_rate2 parity2
    databits2 stopbits2 NULL hid hB2 hpar2 hdb2
  have hslot : (uart_init_steps k (uart_init_steps k s uart_id baud_rate ctrl stopbits cbfn)
      uart_id baud_rate2 ctrl2 stopbits2 NULL).interrupt_fn_table uart_id = NULL := by
    rw [uart_init_ok_fn_table, Function.update_same]
  refine ⟨_, _, hok, hok2, ?_, ?_, hslot, ?_, ?_, ?_, ?_⟩
  · rw [uart_init_ok_fn_table, Function.update_same]
  · rw [uart_init_ok_interrupt_enabled, Function.update_same]
    exact decide_eq_true hcb
  · intro buffer buffer_size
    rw [uart_read_polled_mode _ _ _ _ hid hslot]
    exact ⟨_, rfl⟩
  · rw [uart_init_ok_interrupt_enabled, Function.update_same]
    simp
  · rw [uart_init_ok_block]
    simp only [ne_eq, not_true_eq_false, if_false]
    exact and_not32_and_left _ _ _ hrx
  · rw [uart_init_ok_block]
    simp only [ne_eq, not_true_eq_false, if_false]
    exact and_not32_and_right _ _ _ hrt

/-- C6, worked example: UART 1 is set up with callback 1234 and then set up
again with no callback. -/
theorem uart_init_callback_then_none_witness :
    ∃ s1 s2,
      uart_init example_defs (example_machine 0 0 [] 16 9 NULL) 1 9600
        .UART_PARITY_NONE .UART_DATABITS_8 .UART_STOPBITS_1 1234 = some (.UART_OK, s1) ∧
      uart_init example_defs s1 1 115200 .UART_PARITY_ODD .UART_DATABITS_7
        .UART_STOPBITS_2 NULL = some (.UART_OK, s2) ∧
      s1.interrupt_fn_table 1 = 1234 ∧
      s1.interrupt_enabled (uart_int_map 1) = true ∧
      s2.interrupt_fn_table 1 = NULL ∧
      (∀ (buffer : Nat → Nat) (buffer_size : Nat),
        ∃ count, (uart_read s2 1 buffer buffer_size).1 = .bytes count) ∧
      s2.interrupt_enabled (uart_int_map 1) = false ∧
      (s2.uart_base 1).IM_R &&& example_defs.UART_IM_RXIM = 0 ∧
      (s2.uart_base 1).IM_R &&& example_defs.UART_IM_RTIM = 0 :=
  uart_init_callback_then_none example_defs (example_machine 0 0 [] 16 9 NULL) 1 9600
    .UART_PARITY_NONE .UART_DATABITS_8 .UART_STOPBITS_1 1234 115200 .UART_PARITY_ODD
    .UART_DATABITS_7 .UART_STOPBITS_2 (by decide) (by decide) (by decide) (Or.inl rfl)
    (Or.inr (Or.inr (Or.inr rfl))) (Or.inr (Or.inr rfl)) (Or.inr (Or.inr (Or.inl rfl)))
    (by decide) (by decide) (by decide)

/-- C7: for every valid port in polled mode (no callback registered), with the
receive FIFO holding `k` entries and a buffer of capacity `n`, `uart_read`
returns `count = min k n`; the first `count` buffer positions hold the first
`count` FIFO entries in FIFO order, each masked to its low 8 bits; the other
buffer positions are untouched; exactly those `count` entries are removed from
the FIFO and the remaining ones stay queued in order; nothing else in the
machine changes. -/
theorem uart_read_polled (s : machine_t) (uart_id : Nat) (buffer : Nat → Nat)
    (buffer_size : Nat) (hid : uart_id < NUM_UARTS)
    (hmode : s.interrupt_fn_table uart_id = NULL) :
    (uart_read s uart_id buffer buffer_size).1
      = .bytes (min (s.uart_base uart_id).rx_fifo.length buffer_size) ∧
    List.map (uart_read s uart_id buffer buffer_size).2.1
        (List.range (min (s.uart_base uart_id).rx_fifo.length buffer_size))
      = List.map (fun d => d &&& 0xFF)
        ((s.uart_base uart_id).rx_fifo.take
          (min (s.uart_base uart_id).rx_fifo.length buffer_size)) ∧
    (∀ i, min (s.uart_base uart_id).rx_fifo.length buffer_size ≤ i →
      (uart_read s uart_id buffer buffer_size).2.1 i = buffer i) ∧
    ((uart_read s uart_id buffer buffer_size).2.2.uart_base uart_id).rx_fifo
      = (s.uart_base uart_id).rx_fifo.drop
        (min (s.uart_base uart_id).rx_fifo.length buffer_size) ∧
    (uart_read s uart_id buffer buffer_size).2.2
      = s.set_uart uart_id { s.uart_base uart_id with
          rx_fifo := (s.uart_base uart_id).rx_fifo.drop
            (min (s.uart_base uart_id).rx_fifo.length buffer_size) } := by
  rw [uart_read_polled_mode s uart_id buffer buffer_size hid hmode]
  simp only [uart_read_loop_count, uart_read_loop_block, Nat.zero_add,
    set_uart_uart_base_same, drop_min_length]
  refine ⟨trivial, ?_, ?_, trivial, trivial⟩
  · apply map_range_eq_map_take _ _ _ (Nat.min_le_left _ _)
    intro i hi
    rw [uart_read_loop_buffer]
    simp [hi]
  · intro i hi
    rw [uart_read_loop_buffer]
    have h0 : ¬ (0 ≤ i ∧ i < 0 + min (s.uart_base uart_id).rx_fifo.length buffer_size) := by
      omega
    rw [if_neg h0]

/-- C7, worked example: a receive FIFO holding the words 0x141, 0x42, 0x43 and
a buffer of capacity 2 give count 2, the bytes 0x41 and 0x42 in the buffer and
0x43 still queued. -/
theorem uart_read_polled_witness :
    (uart_read (example_machine 0x301 0 [0x141, 0x42, 0x43] 16 9 NULL) 0 (fun _ => 0) 2).1
      = .bytes 2 ∧
    List.map (uart_read (example_machine 0x301 0 [0x141, 0x42, 0x43] 16 9 NULL) 0
        (fun _ => 0) 2).2.1 (List.range 2) = [0x41, 0x42] ∧
    ((uart_read (example_machine 0x301 0 [0x141, 0x42, 0x43] 16 9 NULL) 0
        (fun _ => 0) 2).2.2.uart_base 0).rx_fifo = [0x43] :=
  ⟨(uart_read_polled (example_machine 0x301 0 [0x141, 0x42, 0x43] 16 9 NULL) 0
      (fun _ => 0) 2 (by decide) rfl).1,
    by decide, by decide⟩

/-- C8: for every port with a registered callback and a receive FIFO holding
`k` entries, one run of `uart_irq` removes exactly `min 16 k` entries from the
front of the FIFO and calls the registered callback exactly once, with the
port, those entries in FIFO order each masked to 8 bits, and the count
`min 16 k` (0 for an empty FIFO); nothing else in the machine changes.  With
20 entries the first run reports count 16 and a second run reports count 4. -/
theorem uart_irq_drains (s : machine_t) (uart_id : Nat)
    (hcb : s.interrupt_fn_table uart_id ≠ NULL) :
    (uart_irq s uart_id).callbacks = s.callbacks ++
      [{ fn := s.interrupt_fn_table uart_id, uart_id := uart_id,
         buffer := List.map (fun d => d &&& 0xFF)
           ((s.uart_base uart_id).rx_fifo.take (min 16 (s.uart_base uart_id).rx_fifo.length)),
         num_chars := min 16 (s.uart_base uart_id).rx_fifo.length }] ∧
    uart_irq s uart_id =
      { s.set_uart uart_id { s.uart_base uart_id with
          rx_fifo := (s.uart_base uart_id).rx_fifo.drop
            (min 16 (s.uart_base uart_id).rx_fifo.length) } with
        callbacks := (uart_irq s uart_id).callbacks } ∧
    ((s.uart_base uart_id).rx_fifo = [] →
      (uart_irq s uart_id).callbacks = s.callbacks ++
        [{ fn := s.interrupt_fn_table uart_id, uart_id := uart_id, buffer := [],
           num_chars := 0 }]) ∧
    ((s.uart_base uart_id).rx_fifo.length = 20 →
      (uart_irq (uart_irq s uart_id) uart_id).callbacks = s.callbacks ++
        [{ fn := s.interrupt_fn_table uart_id, uart_id := uart_id,
           buffer := List.map (fun d => d &&& 0xFF) ((s.uart_base uart_id).rx_fifo.take 16),
           num_chars := 16 },
         { fn := s.interrupt_fn_table uart_id, uart_id := uart_id,
           buffer := List.map (fun d => d &&& 0xFF) ((s.uart_base uart_id).rx_fifo.drop 16),
           num_chars := 4 }] ∧
      ((uart_irq (uart_irq s uart_id) uart_id).uart_base uart_id).rx_fifo = []) := by
  have htake : (s.uart_base uart_id).rx_fifo.take (min 16 (s.uart_base uart_id).rx_fifo.length)
      = (s.uart_base uart_id).rx_fifo.take 16 := by
    rw [List.take_eq_take]
    simp
  have hdrop : (s.uart_base uart_id).rx_fifo.drop (min 16 (s.uart_base uart_id).rx_fifo.length)
      = (s.uart_base uart_id).rx_fifo.drop 16 := by
    rw [Nat.min_comm, drop_min_length]
  have hcb2 : (uart_irq s uart_id).interrupt_fn_table uart_id ≠ NULL := by
    rw [uart_irq_fn_table]
    exact hcb
  refine ⟨?_, ?_, ?_, ?_⟩
  · rw [uart_irq_registered_callbacks s uart_id hcb, htake]
  · rw [hdrop, uart_irq_registered_callbacks s uart_id hcb]
    exact uart_irq_registered s uart_id hcb
  · intro hk
    rw [uart_irq_registered_callbacks s uart_id hcb, hk]
    rfl
  · intro hk
    have hlen : ((s.uart_base uart_id).rx_fifo.drop 16).length = 4 := by
      rw [List.length_drop, hk]
    have htk : ((s.uart_base uart_id).rx_fifo.drop 16).take 16
        = (s.uart_base uart_id).rx_fifo.drop 16 :=
      List.take_of_length_le (by rw [hlen]; decide)
    constructor
    · rw [uart_irq_registered_callbacks _ uart_id hcb2,
        uart_irq_registered_callbacks s uart_id hcb, uart_irq_registered_fifo s uart_id hcb,
        uart_irq_fn_table, hk, hlen, htk, List.append_assoc]
      rfl
    · rw [uart_irq_registered_fifo _ uart_id hcb2, uart_irq_registered_fifo s uart_id hcb,
        List.drop_drop]
      apply List.drop_eq_nil_of_le
      omega

/-- C8, worked example: callback 1234 is registered on UART 0, whose receive
FIFO holds the twenty words 0x100, ..., 0x113.  The first run of `uart_irq`
calls the callback with the sixteen bytes 0, ..., 15, the second with the
four bytes 16, ..., 19, and the FIFO is then empty. -/
theorem uart_irq_drains_witness :
    (uart_irq (uart_irq (example_machine 0x301 0x50
        (List.map (fun i => 0x100 + i) (List.range 20)) 16 0 1234) 0) 0).callbacks =
      [{ fn := 1234, uart_id := 0, buffer := List.range 16, num_chars := 16 },
       { fn := 1234, uart_id := 0, buffer := [16, 17, 18, 19], num_chars := 4 }] ∧
    ((uart_irq (uart_irq (example_machine 0x301 0x50
        (List.map (fun i => 0x100 + i) (List.range 20)) 16 0 1234) 0) 0).uart_base 0).rx_fifo
      = [] :=
  (uart_irq_drains (example_machine 0x301 0x50
    (List.map (fun i => 0x100 + i) (List.range 20)) 16 0 1234) 0 (by decide)).2.2.2 rfl

/-- C9: for every valid port and every input of length `n`, with `free` free
slots in the transmit FIFO, `uart_write_nonblock` returns
`count = min n free`, so `count ≤ n`; the bytes handed to the transmit data
register are exactly the first `count` input bytes in order; the full flag was
clear at each of those bytes and, when `count < n`, is set at the byte that
follows, where the loop stops; with no free slot the function returns 0 and
hands over nothing. -/
theorem uart_write_nonblock_count (s : machine_t) (uart_id : Nat) (buffer : Nat → Nat)
    (buffer_size : Nat) (hid : uart_id < NUM_UARTS) :
    (uart_write_nonblock s uart_id buffer buffer_size).1
      = .bytes (min buffer_size (s.uart_base uart_id).tx_free) ∧
    min buffer_size (s.uart_base uart_id).tx_free ≤ buffer_size ∧
    ((uart_write_nonblock s uart_id buffer buffer_size).2.uart_base uart_id).tx_sent
      = (s.uart_base uart_id).tx_sent ++
        List.map buffer (List.range (min buffer_size (s.uart_base uart_id).tx_free)) ∧
    (∀ j, j < min buffer_size (s.uart_base uart_id).tx_free →
      (FR_R_TXFF_clear (List.foldl DR_R_write (s.uart_base uart_id)
        (List.map buffer (List.range j)))).1 = true) ∧
    (min buffer_size (s.uart_base uart_id).tx_free < buffer_size →
      (FR_R_TXFF_clear (List.foldl DR_R_write (s.uart_base uart_id)
        (List.map buffer (List.range (min buffer_size (s.uart_base uart_id).tx_free))))).1
        = false) ∧
    ((s.uart_base uart_id).tx_free = 0 →
      (uart_write_nonblock s uart_id buffer buffer_size).1 = .bytes 0 ∧
      ((uart_write_nonblock s uart_id buffer buffer_size).2.uart_base uart_id).tx_sent
        = (s.uart_base uart_id).tx_sent) := by
  have hret : (uart_write_nonblock s uart_id buffer buffer_size).1
      = .bytes (min buffer_size (s.uart_base uart_id).tx_free) := by
    unfold uart_write_nonblock
    rw [if_neg (Nat.not_le.mpr hid)]
    simp only [Nat.sub_zero, uart_write_nonblock_loop_count, Nat.zero_add]
  have hsent : ((uart_write_nonblock s uart_id buffer buffer_size).2.uart_base uart_id).tx_sent
      = (s.uart_base uart_id).tx_sent ++
        List.map buffer (List.range (min buffer_size (s.uart_base uart_id).tx_free)) := by
    unfold uart_write_nonblock
    rw [if_neg (Nat.not_le.mpr hid)]
    simp only [Nat.sub_zero, set_uart_uart_base_same, uart_write_nonblock_loop_sent,
      Nat.zero_add]
  refine ⟨hret, Nat.min_le_left _ _, hsent, ?_, ?_, ?_⟩
  · intro j hj
    have hfree : 0 < (List.foldl DR_R_write (s.uart_base uart_id)
        (List.map buffer (List.range j))).tx_free := by
      rw [foldl_DR_R_write_tx_free, List.length_map, List.length_range]
      omega
    rw [FR_R_TXFF_clear_free _ hfree]
  · intro hlt
    have hfull : (List.foldl DR_R_write (s.uart_base uart_id) (List.map buffer
        (List.range (min buffer_size (s.uart_base uart_id).tx_free)))).tx_free = 0 := by
      rw [foldl_DR_R_write_tx_free, List.length_map, List.length_range]
      omega
    rw [FR_R_TXFF_clear_full _ hfull]
  · intro h0
    rw [hret, hsent, h0]
    simp

/-- C9, worked example: five input bytes and three free slots give count 3 and
the first three bytes in the transmit FIFO; a full FIFO gives count 0. -/
theorem uart_write_nonblock_count_witness :
    (uart_write_nonblock (example_machine 0x301 0 [] 3 9 NULL) 4
      (fun i => 0x61 + i) 5).1 = .bytes 3 ∧
    ((uart_write_nonblock (example_machine 0x301 0 [] 3 9 NULL) 4
      (fun i => 0x61 + i) 5).2.uart_base 4).tx_sent = [0x61, 0x62, 0x63] ∧
    (uart_write_nonblock (example_machine 0x301 0 [] 0 9 NULL) 4
      (fun i => 0x61 + i) 5).1 = .bytes 0 :=
  ⟨(uart_write_nonblock_count (example_machine 0x301 0 [] 3 9 NULL) 4
      (fun i => 0x61 + i) 5 (by decide)).1,
    (uart_write_nonblock_count (example_machine 0x301 0 [] 3 9 NULL) 4
      (fun i => 0x61 + i) 5 (by decide)).2.2.1,
    ((uart_write_nonblock_count (example_machine 0x301 0 [] 0 9 NULL) 4
      (fun i => 0x61 + i) 5 (by decide)).2.2.2.2.2 rfl).1⟩

/-- C10: for every valid port and every input of length `n`, if the
transmitter frees a slot within every `K` polls of a full transmit FIFO (so
that the full flag, once polled, is deasserted after at most `K` polls), then
`uart_write` terminates, within `n * (K + 1) + 1` iterations of its loop,
returns `UART_OK`, and the bytes handed to the transmit data register are
exactly the `n` input bytes, every byte once and in order. -/
theorem uart_write_terminates (s : machine_t) (uart_id : Nat) (buffer : Nat → Nat)
    (buffer_size K : Nat) (hid : uart_id < NUM_UARTS)
    (hdrain : ∀ t, (s.uart_base uart_id).tx_tick ≤ t →
      ∃ j, j < K ∧ (s.uart_base uart_id).tx_drain (t + j) = true) :
    ∀ fuel, buffer_size * (K + 1) + 1 ≤ fuel →
      ∃ s1, uart_write fuel s uart_id buffer buffer_size = some (.UART_OK, s1) ∧
        (s1.uart_base uart_id).tx_sent
          = (s.uart_base uart_id).tx_sent ++ List.map buffer (List.range buffer_size) := by
  intro fuel hfuel
  obtain ⟨r1, hloop, hsent⟩ := uart_write_loop_terminates buffer buffer_size K buffer_size
    (s.uart_base uart_id) 0 fuel (Nat.zero_add _) hdrain hfuel
  refine ⟨s.set_uart uart_id r1, ?_, ?_⟩
  · unfold uart_write
    rw [if_neg (Nat.not_le.mpr hid), hloop]
  · rw [set_uart_uart_base_same, hsent]
    simp only [Nat.zero_add]

/-- C10, worked example: UART 0 starts with a full transmit FIFO and a
transmitter that frees a slot at every poll; writing three bytes returns
`UART_OK` within seven iterations, the three bytes sent in order. -/
theorem uart_write_terminates_witness :
    ∃ s1, uart_write 7 (example_machine 0x301 0 [] 0 9 NULL) 0 (fun i => 0x61 + i) 3
        = some (.UART_OK, s1) ∧
      (s1.uart_base 0).tx_sent = [] ++ List.map (fun i => 0x61 + i) (List.range 3) :=
  uart_write_terminates (example_machine 0x301 0 [] 0 9 NULL) 0 (fun i => 0x61 + i) 3 1
    (by decide) (fun _ _ => ⟨0, by decide, rfl⟩) 7 (by decide)

/-- C11: for every peripheral clock `C` and baud rate `B > 0`, with `C * 8`
fitting the 32-bit word, the value `((C * 8) / B + 1) / 2` that `uart_init`
computes with truncating division is the exact rational
`(C / (16 * B)) * 64 = 4 * C / B` rounded to the nearest integer, ties rounded
up: it equals `floor (4 * C / B + 1 / 2)`, and so lies within one half of
`4 * C / B`. -/
theorem baud_int_round_to_nearest (k : uart_defs) (baud_rate : Nat) (hB : 0 < baud_rate)
    (hclk : k.CLOCK_RATE * 8 < 2 ^ 32) :
    baud_int k baud_rate = ((k.CLOCK_RATE * 8) / baud_rate + 1) / 2 ∧
    (k.CLOCK_RATE : ℚ) / (16 * baud_rate) * 64 = 4 * (k.CLOCK_RATE : ℚ) / baud_rate ∧
    ((baud_int k baud_rate : Nat) : ℤ) = ⌊4 * (k.CLOCK_RATE : ℚ) / baud_rate + 1 / 2⌋ ∧
    4 * (k.CLOCK_RATE : ℚ) / baud_rate - 1 / 2 < (baud_int k baud_rate : ℚ) ∧
    (baud_int k baud_rate : ℚ) ≤ 4 * (k.CLOCK_RATE : ℚ) / baud_rate + 1 / 2 := by
  have hbq : (0 : ℚ) < baud_rate := by exact_mod_cast hB
  have hx : baud_int k baud_rate = ((k.CLOCK_RATE * 8) / baud_rate + 1) / 2 := by
    unfold baud_int
    rw [Nat.mod_eq_of_lt hclk]
  have hq : 4 * (k.CLOCK_RATE : ℚ) / baud_rate
      = ((k.CLOCK_RATE * 8 : Nat) : ℚ) / (2 * baud_rate) := by
    push_cast
    field_simp
    ring
  have hfloor : ((baud_int k baud_rate : Nat) : ℤ)
      = ⌊4 * (k.CLOCK_RATE : ℚ) / baud_rate + 1 / 2⌋ := by
    rw [hx, round_half_up_nat _ _ hB, hq]
    exact round_half_up_floor _ _ hB
  have hcast : (baud_int k baud_rate : ℚ) = ((baud_int k baud_rate : ℤ) : ℚ) := by
    push_cast
    rfl
  refine ⟨hx, ?_, hfloor, ?_, ?_⟩
  · field_simp
    ring
  · rw [hcast, hfloor]
    have hlt := Int.lt_floor_add_one (4 * (k.CLOCK_RATE : ℚ) / baud_rate + 1 / 2)
    linarith
  · rw [hcast, hfloor]
    exact Int.floor_le _

/-- C11, worked example: the 16 MHz example clock at 9600 baud; the exact
value `4 * C / B` is 6666.67 and the computed value is its nearest integer. -/
theorem baud_int_round_to_nearest_witness :
    ((baud_int example_defs 9600 : Nat) : ℤ)
      = ⌊4 * (example_defs.CLOCK_RATE : ℚ) / (9600 : Nat) + 1 / 2⌋ ∧
    baud_int example_defs 9600 = 6667 :=
  ⟨(baud_int_round_to_nearest example_defs 9600 (by decide) (by decide)).2.2.1, by decide⟩

/-- C12: for every successful `uart_init`, the value written to the
line-control register is exactly the FIFO-enable bit, OR the parity bits of
the requested mode (Even: parity-enable and even-select; Odd: parity-enable
only; None: neither), OR the word-length field of the requested data bits, OR
the 2-stop-bits flag if and only if the stop bits are `UART_STOPBITS_2`.  Every
other stop-bits value is accepted and gives the same register value as
`UART_STOPBITS_1`. -/
theorem uart_init_line_control_value (k : uart_defs) (s : machine_t)
    (uart_id baud_rate : Nat) (parity : uart_parity_t) (databits : uart_databits_t)
    (stopbits : uart_stopbits_t) (cbfn : uart_callback_fn_t)
    (hid : uart_id < NUM_UARTS) (hB : 0 < baud_rate)
    (hpar : parity = .UART_PARITY_NONE ∨ parity = .UART_PARITY_EVEN ∨
      parity = .UART_PARITY_ODD)
    (hdb : databits = .UART_DATABITS_5 ∨ databits = .UART_DATABITS_6 ∨
      databits = .UART_DATABITS_7 ∨ databits = .UART_DATABITS_8) :
    (∃ s1, uart_init k s uart_id baud_rate parity databits stopbits cbfn
        = some (.UART_OK, s1) ∧
      (s1.uart_base uart_id).LCRH_R = line_control_spec k parity databits stopbits) ∧
    (∀ stopbits2 : uart_stopbits_t, stopbits2 ≠ .UART_STOPBITS_2 →
      ∃ s2 s3,
        uart_init k s uart_id baud_rate parity databits stopbits2 cbfn
          = some (.UART_OK, s2) ∧
        uart_init k s uart_id baud_rate parity databits .UART_STOPBITS_1 cbfn
          = some (.UART_OK, s3) ∧
        (s2.uart_base uart_id).LCRH_R = (s3.uart_base uart_id).LCRH_R ∧
        (s2.uart_base uart_id).LCRH_R =
          (k.UART_LCRH_FEN ||| line_control_parity_bits k parity) |||
            line_control_word_length k databits) := by
  constructor
  · refine ⟨_, uart_init_success_ctrl k s uart_id baud_rate parity databits stopbits cbfn
      hid hB hpar hdb, ?_⟩
    rw [uart_init_steps_line_control]
    rfl
  · intro stopbits2 hsb
    refine ⟨_, _, uart_init_success_ctrl k s uart_id baud_rate parity databits stopbits2 cbfn
      hid hB hpar hdb, uart_init_success_ctrl k s uart_id baud_rate parity databits
      .UART_STOPBITS_1 cbfn hid hB hpar hdb, ?_, ?_⟩
    · rw [uart_init_steps_line_control, uart_init_steps_line_control]
      simp [hsb]
    · rw [uart_init_steps_line_control]
      simp [hsb]

/-- C12, worked example: even parity, 7 data bits and 2 stop bits on the
example constants give the line-control value 0x5E; the out-of-range stop-bits
value 9 is accepted and gives 0x56, as 1 stop bit does. -/
theorem uart_init_line_control_value_witness :
    (∃ s1, uart_init example_defs (example_machine 0 0 [] 16 9 NULL) 5 9600
        .UART_PARITY_EVEN .UART_DATABITS_7 .UART_STOPBITS_2 NULL = some (.UART_OK, s1) ∧
      (s1.uart_base 5).LCRH_R = 0x5E) ∧
    (∃ s2 s3,
        uart_init example_defs (example_machine 0 0 [] 16 9 NULL) 5 9600
          .UART_PARITY_EVEN .UART_DATABITS_7 (.other 9) NULL = some (.UART_OK, s2) ∧
        uart_init example_defs (example_machine 0 0 [] 16 9 NULL) 5 9600
          .UART_PARITY_EVEN .UART_DATABITS_7 .UART_STOPBITS_1 NULL = some (.UART_OK, s3) ∧
        (s2.uart_base 5).LCRH_R = (s3.uart_base 5).LCRH_R ∧
        (s2.uart_base 5).LCRH_R = 0x56) :=
  ⟨(uart_init_line_control_value example_defs (example_machine 0 0 [] 16 9 NULL) 5 9600
      .UART_PARITY_EVEN .UART_DATABITS_7 .UART_STOPBITS_2 NULL (by decide) (by decide)
      (Or.inr (Or.inl rfl)) (Or.inr (Or.inr (Or.inl rfl)))).1,
    (uart_init_line_control_value example_defs (example_machine 0 0 [] 16 9 NULL) 5 9600
      .UART_PARITY_EVEN .UART_DATABITS_7 .UART_STOPBITS_2 NULL (by decide) (by decide)
      (Or.inr (Or.inl rfl)) (Or.inr (Or.inr (Or.inl rfl)))).2 (.other 9) (by decide)⟩

/-- C13: for every valid port and valid configuration (the two interrupt-mask
constants being 32-bit words), after a successful `uart_init` the port is in
interrupt-driven mode if and only if a callback was supplied.  With a
callback, the callback slot of the port holds exactly that callback, the
receive and receive-timeout bits of the interrupt mask are set, the other mask
bits are unchanged, and the mapped interrupt line `uart_int_map[uart_id]` is
enabled.  With no callback, the slot is null, those two mask bits are clear,
the other bits of the 32-bit mask are unchanged, and the mapped interrupt line
is disabled. -/
theorem uart_init_interrupt_mode (k : uart_defs) (s : machine_t)
    (uart_id baud_rate : Nat) (parity : uart_parity_t) (databits : uart_databits_t)
    (stopbits : uart_stopbits_t) (cbfn : uart_callback_fn_t)
    (hid : uart_id < NUM_UARTS) (hB : 0 < baud_rate)
    (hpar : parity = .UART_PARITY_NONE ∨ parity = .UART_PARITY_EVEN ∨
      parity = .UART_PARITY_ODD)
    (hdb : databits = .UART_DATABITS_5 ∨ databits = .UART_DATABITS_6 ∨
      databits = .UART_DATABITS_7 ∨ databits = .UART_DATABITS_8)
    (hrx : k.UART_IM_RXIM < 2 ^ 32) (hrt : k.UART_IM_RTIM < 2 ^ 32) :
    ∃ s1, uart_init k s uart_id baud_rate parity databits stopbits cbfn
        = some (.UART_OK, s1) ∧
      (s1.interrupt_fn_table uart_id ≠ NULL ↔ cbfn ≠ NULL) ∧
      (cbfn ≠ NULL →
        s1.interrupt_fn_table uart_id = cbfn ∧
        (s1.uart_base uart_id).IM_R &&& k.UART_IM_RXIM = k.UART_IM_RXIM ∧
        (s1.uart_base uart_id).IM_R &&& k.UART_IM_RTIM = k.UART_IM_RTIM ∧
        (∀ i, (k.UART_IM_RXIM ||| k.UART_IM_RTIM).testBit i = false →
          (s1.uart_base uart_id).IM_R.testBit i = (s.uart_base uart_id).IM_R.testBit i) ∧
        s1.interrupt_enabled (uart_int_map uart_id) = true) ∧
      (cbfn = NULL →
        s1.interrupt_fn_table uart_id = NULL ∧
        (s1.uart_base uart_id).IM_R &&& k.UART_IM_RXIM = 0 ∧
        (s1.uart_base uart_id).IM_R &&& k.UART_IM_RTIM = 0 ∧
        (∀ i, i < 32 → (k.UART_IM_RXIM ||| k.UART_IM_RTIM).testBit i = false →
          (s1.uart_base uart_id).IM_R.testBit i = (s.uart_base uart_id).IM_R.testBit i) ∧
        s1.interrupt_enabled (uart_int_map uart_id) = false) := by
  obtain ⟨ctrl, hok⟩ := uart_init_success k s uart_id baud_rate parity databits stopbits cbfn
    hid hB hpar hdb
  have hslot : (uart_init_steps k s uart_id baud_rate ctrl stopbits cbfn).interrupt_fn_table
      uart_id = cbfn := by
    rw [uart_init_ok_fn_table, Function.update_same]
  refine ⟨_, hok, ?_, ?_, ?_⟩
  · rw [hslot]
  · intro hcb
    refine ⟨hslot, ?_, ?_, ?_, ?_⟩
    · rw [uart_init_ok_block]
      simp only [hcb, ne_eq, not_false_eq_true, if_true]
      exact or_and_left_self _ _ _
    · rw [uart_init_ok_block]
      simp only [hcb, ne_eq, not_false_eq_true, if_true]
      exact or_and_right_self _ _ _
    · intro i hi
      rw [uart_init_ok_block]
      simp only [hcb, ne_eq, not_false_eq_true, if_true]
      exact testBit_or_of_not_mask _ _ i hi
    · rw [uart_init_ok_interrupt_enabled, Function.update_same]
      exact decide_eq_true hcb
  · intro hcb
    refine ⟨by rw [hslot, hcb], ?_, ?_, ?_, ?_⟩
    · rw [uart_init_ok_block]
      simp only [hcb, ne_eq, not_true_eq_false, if_false]
      exact and_not32_and_left _ _ _ hrx
    · rw [uart_init_ok_block]
      simp only [hcb, ne_eq, not_true_eq_false, if_false]
      exact and_not32_and_right _ _ _ hrt
    · intro i hi hbit
      rw [uart_init_ok_block]
      simp only [hcb, ne_eq, not_true_eq_false, if_false]
      exact testBit_and_not32_of_not_mask _ _ i hi hbit
    · rw [uart_init_ok_interrupt_enabled, Function.update_same]
      simp [hcb]

/-- C13, worked example: UART 3 is set up with callback 1234 on the example
constants; the slot then holds 1234, the two mask bits 0x10 and 0x40 are set
and interrupt line `uart_int_map 3` is enabled. -/
theorem uart_init_interrupt_mode_witness :
    ∃ s1, uart_init example_defs (example_machine 0 0x0F [] 16 9 NULL) 3 9600
        .UART_PARITY_NONE .UART_DATABITS_8 .UART_STOPBITS_1 1234 = some (.UART_OK, s1) ∧
      (s1.interrupt_fn_table 3 ≠ NULL ↔ (1234 : uart_callback_fn_t) ≠ NULL) ∧
      ((1234 : uart_callback_fn_t) ≠ NULL →
        s1.interrupt_fn_table 3 = 1234 ∧
        (s1.uart_base 3).IM_R &&& example_defs.UART_IM_RXIM = example_defs.UART_IM_RXIM ∧
        (s1.uart_base 3).IM_R &&& example_defs.UART_IM_RTIM = example_defs.UART_IM_RTIM ∧
        (∀ i, (example_defs.UART_IM_RXIM ||| example_defs.UART_IM_RTIM).testBit i = false →
          (s1.uart_base 3).IM_R.testBit i
            = ((example_machine 0 0x0F [] 16 9 NULL).uart_base 3).IM_R.testBit i) ∧
        s1.interrupt_enabled (uart_int_map 3) = true) ∧
      ((1234 : uart_callback_fn_t) = NULL →
        s1.interrupt_fn_table 3 = NULL ∧
        (s1.uart_base 3).IM_R &&& example_defs.UART_IM_RXIM = 0 ∧
        (s1.uart_base 3).IM_R &&& example_defs.UART_IM_RTIM = 0 ∧
        (∀ i, i < 32 →
          (example_defs.UART_IM_RXIM ||| example_defs.UART_IM_RTIM).testBit i = false →
          (s1.uart_base 3).IM_R.testBit i
            = ((example_machine 0 0x0F [] 16 9 NULL).uart_base 3).IM_R.testBit i) ∧
        s1.interrupt_enabled (uart_int_map 3) = false) :=
  uart_init_interrupt_mode example_defs (example_machine 0 0x0F [] 16 9 NULL) 3 9600
    .UART_PARITY_NONE .UART_DATABITS_8 .UART_STOPBITS_1 1234 (by decide) (by decide)
    (Or.inl rfl) (Or.inr (Or.inr (Or.inr rfl))) (by decide) (by decide)

/-- C14: for every port that has no registered callback, `uart_irq` does
nothing: the machine is unchanged, so no callback call is logged, no entry
leaves the receive FIFO (empty or not) and no register changes. -/
theorem uart_irq_no_callback (s : machine_t) (uart_id : Nat)
    (hcb : s.interrupt_fn_table uart_id = NULL) :
    uart_irq s uart_id = s ∧
    (uart_irq s uart_id).callbacks = s.callbacks ∧
    ((uart_irq s uart_id).uart_base uart_id).rx_fifo = (s.uart_base uart_id).rx_fifo := by
  have h : uart_irq s uart_id = s := by
    unfold uart_irq
    rw [if_neg (not_not.mpr hcb)]
  rw [h]
  exact ⟨rfl, rfl, rfl⟩

/-- C14, worked example: UART 2 has no callback and three words waiting; a run
of `uart_irq` leaves them there and logs no call. -/
theorem uart_irq_no_callback_witness :
    uart_irq (example_machine 0x301 0 [1, 2, 3] 16 9 NULL) 2
      = example_machine 0x301 0 [1, 2, 3] 16 9 NULL ∧
    (uart_irq (example_machine 0x301 0 [1, 2, 3] 16 9 NULL) 2).callbacks = [] ∧
    ((uart_irq (example_machine 0x301 0 [1, 2, 3] 16 9 NULL) 2).uart_base 2).rx_fifo
      = [1, 2, 3] :=
  uart_irq_no_callback (example_machine 0x301 0 [1, 2, 3] 16 9 NULL) 2 rfl

/-- C15: for every valid port and valid configuration, `uart_init` with no
callback followed immediately by `uart_read` on that port, the hardware
receive FIFO being empty, returns the count 0 for every buffer capacity
(capacity 0 included) and leaves the buffer and the machine as they are; the
write `FR_R = 0` of `uart_init` does not make the receive-FIFO-empty flag read
as clear. -/
theorem uart_read_after_init_empty (k : uart_defs) (s : machine_t)
    (uart_id baud_rate : Nat) (parity : uart_parity_t) (databits : uart_databits_t)
    (stopbits : uart_stopbits_t)
    (hid : uart_id < NUM_UARTS) (hB : 0 < baud_rate)
    (hpar : parity = .UART_PARITY_NONE ∨ parity = .UART_PARITY_EVEN ∨
      parity = .UART_PARITY_ODD)
    (hdb : databits = .UART_DATABITS_5 ∨ databits = .UART_DATABITS_6 ∨
      databits = .UART_DATABITS_7 ∨ databits = .UART_DATABITS_8)
    (hempty : (s.uart_base uart_id).rx_fifo = []) :
    ∃ s1, uart_init k s uart_id baud_rate parity databits stopbits NULL
        = some (.UART_OK, s1) ∧
      FR_R_RXFE_clear (s1.uart_base uart_id) = false ∧
      ∀ (buffer : Nat → Nat) (buffer_size : Nat),
        uart_read s1 uart_id buffer buffer_size = (.bytes 0, buffer, s1) := by
  obtain ⟨ctrl, hok⟩ := uart_init_success k s uart_id baud_rate parity databits stopbits NULL
    hid hB hpar hdb
  have hslot : (uart_init_steps k s uart_id baud_rate ctrl stopbits NULL).interrupt_fn_table
      uart_id = NULL := by
    rw [uart_init_ok_fn_table, Function.update_same]
  have hfifo : ((uart_init_steps k s uart_id baud_rate ctrl stopbits NULL).uart_base
      uart_id).rx_fifo = [] := by
    rw [uart_init_ok_block]
    exact hempty
  refine ⟨_, hok, ?_, ?_⟩
  · simp [FR_R_RXFE_clear, hfifo]
  · intro buffer buffer_size
    rw [uart_read_polled_mode _ _ _ _ hid hslot, uart_read_loop_empty _ _ _ _ hfifo,
      set_uart_self]

/-- C15, worked example: UART 6 with an empty receive FIFO is set up with no
callback; reads with capacity 0 and capacity 8 both return count 0. -/
theorem uart_read_after_init_empty_witness :
    ∃ s1, uart_init example_defs (example_machine 0 0 [] 16 9 NULL) 6 9600
        .UART_PARITY_ODD .UART_DATABITS_5 .UART_STOPBITS_1 NULL = some (.UART_OK, s1) ∧
      FR_R_RXFE_clear (s1.uart_base 6) = false ∧
      ∀ (buffer : Nat → Nat) (buffer_size : Nat),
        uart_read s1 6 buffer buffer_size = (.bytes 0, buffer, s1) :=
  uart_read_after_init_empty example_defs (example_machine 0 0 [] 16 9 NULL) 6 9600
    .UART_PARITY_ODD .UART_DATABITS_5 .UART_STOPBITS_1 (by decide) (by decide)
    (Or.inr (Or.inr rfl)) (Or.inl rfl) rfl

/-- C17: for every valid port, valid configuration and prior control-register
value, after a successful `uart_init` the control register holds exactly the
receive-enable, transmit-enable and module-enable bits and no other bit. -/
theorem uart_init_control_register (k : uart_defs) (s : machine_t)
    (uart_id baud_rate : Nat) (parity : uart_parity_t) (databits : uart_databits_t)
    (stopbits : uart_stopbits_t) (cbfn : uart_callback_fn_t)
    (hid : uart_id < NUM_UARTS) (hB : 0 < baud_rate)
    (hpar : parity = .UART_PARITY_NONE ∨ parity = .UART_PARITY_EVEN ∨
      parity = .UART_PARITY_ODD)
    (hdb : databits = .UART_DATABITS_5 ∨ databits = .UART_DATABITS_6 ∨
      databits = .UART_DATABITS_7 ∨ databits = .UART_DATABITS_8) :
    ∃ s1, uart_init k s uart_id baud_rate parity databits stopbits cbfn
        = some (.UART_OK, s1) ∧
      (s1.uart_base uart_id).CTL_R
        = (k.UART_CTL_RXE ||| k.UART_CTL_TXE) ||| k.UART_CTL_UARTEN ∧
      ∀ i, (s1.uart_base uart_id).CTL_R.testBit i =
        (k.UART_CTL_RXE.testBit i || k.UART_CTL_TXE.testBit i ||
          k.UART_CTL_UARTEN.testBit i) := by
  obtain ⟨ctrl, hok⟩ := uart_init_success k s uart_id baud_rate parity databits stopbits cbfn
    hid hB hpar hdb
  have hctl : ((uart_init_steps k s uart_id baud_rate ctrl stopbits cbfn).uart_base
      uart_id).CTL_R = (k.UART_CTL_RXE ||| k.UART_CTL_TXE) ||| k.UART_CTL_UARTEN := by
    rw [uart_init_ok_block]
    exact Nat.zero_or _
  refine ⟨_, hok, hctl, ?_⟩
  intro i
  rw [hctl, Nat.testBit_or, Nat.testBit_or]

/-- C17, worked example: UART 0 whose control register holds 0xFFFF before the
call holds 0x301 after it. -/
theorem uart_init_control_register_witness :
    ∃ s1, uart_init example_defs (example_machine 0xFFFF 0 [] 16 9 NULL) 0 9600
        .UART_PARITY_NONE .UART_DATABITS_8 .UART_STOPBITS_1 NULL = some (.UART_OK, s1) ∧
      (s1.uart_base 0).CTL_R
        = (example_defs.UART_CTL_RXE ||| example_defs.UART_CTL_TXE) |||
          example_defs.UART_CTL_UARTEN ∧
      ∀ i, (s1.uart_base 0).CTL_R.testBit i =
        (example_defs.UART_CTL_RXE.testBit i || example_defs.UART_CTL_TXE.testBit i ||
          example_defs.UART_CTL_UARTEN.testBit i) :=
  uart_init_control_register example_defs (example_machine 0xFFFF 0 [] 16 9 NULL) 0 9600
    .UART_PARITY_NONE .UART_DATABITS_8 .UART_STOPBITS_1 NULL (by decide) (by decide)
    (Or.inl rfl) (Or.inr (Or.inr (Or.inr rfl)))

/-- C16: the per-port mode is changed only by `uart_init`: for every state and
every argument, `uart_read`, `uart_write`, `uart_write_str`,
`uart_write_nonblock` and `uart_irq` leave every slot of the callback table
unchanged, so after any sequence of these calls the table, and with it the
mode of every port, is what the last `uart_init` left. -/
theorem callback_table_only_changed_by_init (s : machine_t) :
    (∀ (uart_id : Nat) (buffer : Nat → Nat) (buffer_size : Nat),
      (uart_read s uart_id buffer buffer_size).2.2.interrupt_fn_table
        = s.interrupt_fn_table) ∧
    (∀ (fuel uart_id : Nat) (buffer : Nat → Nat) (buffer_size : Nat) (st : uart_status_t)
      (s1 : machine_t), uart_write fuel s uart_id buffer buffer_size = some (st, s1) →
      s1.interrupt_fn_table = s.interrupt_fn_table) ∧
    (∀ (fuel uart_id : Nat) (sz_buffer : Nat → Nat) (st : uart_status_t) (s1 : machine_t),
      uart_write_str fuel s uart_id sz_buffer = some (st, s1) →
      s1.interrupt_fn_table = s.interrupt_fn_table) ∧
    (∀ (uart_id : Nat) (buffer : Nat → Nat) (buffer_size : Nat),
      (uart_write_nonblock s uart_id buffer buffer_size).2.interrupt_fn_table
        = s.interrupt_fn_table) ∧
    (∀ uart_id : Nat, (uart_irq s uart_id).interrupt_fn_table = s.interrupt_fn_table) ∧
    (∀ (calls : List driver_call) (s1 : machine_t), apply_calls s calls = some s1 →
      s1.interrupt_fn_table = s.interrupt_fn_table ∧
      ∀ uart_id : Nat,
        (s1.interrupt_fn_table uart_id ≠ NULL ↔ s.interrupt_fn_table uart_id ≠ NULL)) := by
  refine ⟨uart_read_fn_table s, ?_, ?_, uart_write_nonblock_fn_table s,
    uart_irq_fn_table s, ?_⟩
  · intro fuel uart_id buffer buffer_size st s1 h
    exact uart_write_fn_table fuel s s1 uart_id buffer buffer_size st h
  · intro fuel uart_id sz_buffer st s1 h
    exact uart_write_str_fn_table fuel s s1 uart_id sz_buffer st h
  · intro calls s1 h
    have htab := apply_calls_fn_table calls s s1 h
    refine ⟨htab, ?_⟩
    intro uart_id
    rw [htab]

/-- C16, worked example: UART 0 is in interrupt mode with callback 1234 and
two words waiting.  The calls of `example_calls` (a rejected read, a run of the
handler, three writes and a read on UART 1) all return, and the callback table
is as before. -/
theorem callback_table_only_changed_by_init_witness :
    ∃ s1, apply_calls (example_machine 0x301 0x50 [0x41, 0x42] 1 0 1234) example_calls
        = some s1 ∧
      s1.interrupt_fn_table
        = (example_machine 0x301 0x50 [0x41, 0x42] 1 0 1234).interrupt_fn_table :=
  ⟨_, rfl,
    ((callback_table_only_changed_by_init
      (example_machine 0x301 0x50 [0x41, 0x42] 1 0 1234)).2.2.2.2.2 example_calls _ rfl).1⟩

/-- C18: for every valid port and every prior state, when `uart_init` fails
with `UART_ERROR_INVALID_PARITY` or `UART_ERROR_INVALID_DATABITS` the
peripheral is left partially configured and disabled: the control register is
zero, the clock-gate bit of the port is set and the divisor registers hold the
newly computed values, while the line-control register, the interrupt mask,
the interrupt-line enable and the callback slot keep their previous values; a
port that was interrupt-driven still rejects `uart_read` with
`UART_ERROR_INTERRUPT_MODE`. -/
theorem uart_init_failure_partial (k : uart_defs) (s s1 : machine_t)
    (uart_id baud_rate : Nat) (parity : uart_parity_t) (databits : uart_databits_t)
    (stopbits : uart_stopbits_t) (cbfn : uart_callback_fn_t) (st : uart_status_t)
    (hid : uart_id < NUM_UARTS)
    (hst : st = .UART_ERROR_INVALID_PARITY ∨ st = .UART_ERROR_INVALID_DATABITS)
    (h : uart_init k s uart_id baud_rate parity databits stopbits cbfn = some (st, s1)) :
    (s1.uart_base uart_id).CTL_R = 0 ∧
    s1.SYSCTL_RCGCUART_R.testBit uart_id = true ∧
    (s1.uart_base uart_id).IBRD_R = baud_int k baud_rate / 64 ∧
    (s1.uart_base uart_id).FBRD_R = baud_int k baud_rate % 64 ∧
    (s1.uart_base uart_id).LCRH_R = (s.uart_base uart_id).LCRH_R ∧
    (s1.uart_base uart_id).IM_R = (s.uart_base uart_id).IM_R ∧
    s1.interrupt_enabled (uart_int_map uart_id)
      = s.interrupt_enabled (uart_int_map uart_id) ∧
    s1.interrupt_fn_table uart_id = s.interrupt_fn_table uart_id ∧
    (s.interrupt_fn_table uart_id ≠ NULL →
      ∀ (buffer : Nat → Nat) (buffer_size : Nat),
        uart_read s1 uart_id buffer buffer_size
          = (.error .UART_ERROR_INTERRUPT_MODE, buffer, s1)) := by
  have hs := uart_init_failure_state k s s1 uart_id baud_rate parity databits stopbits cbfn st
    hid hst h
  subst hs
  refine ⟨?_, ?_, ?_, ?_, ?_, ?_, rfl, rfl, ?_⟩
  · rw [uart_init_failure_block]
  · rw [uart_init_failure_clock_gate]
    exact testBit_or_shift_self _ _
  · rw [uart_init_failure_block]
  · rw [uart_init_failure_block]
  · rw [uart_init_failure_block]
  · rw [uart_init_failure_block]
  · intro hcb buffer buffer_size
    exact uart_read_interrupt_mode _ _ _ _ hid hcb

/-- C18, worked example: UART 0 is enabled and interrupt-driven (callback
1234, mask 0x50); `uart_init` with invalid data bits fails, leaves the control
register zero and the divisors 104 and 11, keeps the mask and the slot, and a
read is still rejected. -/
theorem uart_init_failure_partial_witness :
    ∃ s1, uart_init example_defs (example_machine 0x301 0x50 [65] 16 0 1234) 0 9600
        .UART_PARITY_NONE (.invalid 9) .UART_STOPBITS_1 NULL
        = some (.UART_ERROR_INVALID_DATABITS, s1) ∧
      (s1.uart_base 0).CTL_R = 0 ∧
      s1.SYSCTL_RCGCUART_R.testBit 0 = true ∧
      (s1.uart_base 0).IBRD_R = baud_int example_defs 9600 / 64 ∧
      (s1.uart_base 0).FBRD_R = baud_int example_defs 9600 % 64 ∧
      (s1.uart_base 0).LCRH_R
        = ((example_machine 0x301 0x50 [65] 16 0 1234).uart_base 0).LCRH_R ∧
      (s1.uart_base 0).IM_R = ((example_machine 0x301 0x50 [65] 16 0 1234).uart_base 0).IM_R ∧
      s1.interrupt_enabled (uart_int_map 0)
        = (example_machine 0x301 0x50 [65] 16 0 1234).interrupt_enabled (uart_int_map 0) ∧
      s1.interrupt_fn_table 0
        = (example_machine 0x301 0x50 [65] 16 0 1234).interrupt_fn_table 0 ∧
      ((example_machine 0x301 0x50 [65] 16 0 1234).interrupt_fn_table 0 ≠ NULL →
        ∀ (buffer : Nat → Nat) (buffer_size : Nat),
          uart_read s1 0 buffer buffer_size
            = (.error .UART_ERROR_INTERRUPT_MODE, buffer, s1)) :=
  ⟨_, rfl,
    uart_init_failure_partial example_defs (example_machine 0x301 0x50 [65] 16 0 1234) _
      0 9600 .UART_PARITY_NONE (.invalid 9) .UART_STOPBITS_1 NULL _ (by decide)
      (Or.inr rfl) rfl⟩

/-- C19: port isolation.  For every pair of distinct valid ports `p` and `q`,
`uart_init`, `uart_read`, `uart_write`, `uart_write_nonblock` and `uart_irq`
applied to `p` leave `q` unchanged: its register block with both FIFOs, its
callback slot, the enable bit of its interrupt line and its clock-gate bit.
`uart_init` changes no bit of the clock-gating register other than bit `p` and
no interrupt line other than `uart_int_map[p]`; the interrupt lines of `p`
and `q` differ, the table `uart_int_map` being injective on the valid ports. -/
theorem port_isolation (k : uart_defs) (s : machine_t) (p q : Nat)
    (hp : p < NUM_UARTS) (hq : q < NUM_UARTS) (hpq : p ≠ q) :
    (∀ (baud_rate : Nat) (parity : uart_parity_t) (databits : uart_databits_t)
      (stopbits : uart_stopbits_t) (cbfn : uart_callback_fn_t) (st : uart_status_t)
      (s1 : machine_t),
      uart_init k s p baud_rate parity databits stopbits cbfn = some (st, s1) →
      port_unchanged s s1 q ∧
      (∀ i, i ≠ p → s1.SYSCTL_RCGCUART_R.testBit i = s.SYSCTL_RCGCUART_R.testBit i) ∧
      (∀ line, line ≠ uart_int_map p →
        s1.interrupt_enabled line = s.interrupt_enabled line)) ∧
    (∀ (buffer : Nat → Nat) (buffer_size : Nat),
      port_unchanged s (uart_read s p buffer buffer_size).2.2 q) ∧
    (∀ (fuel : Nat) (buffer : Nat → Nat) (buffer_size : Nat) (st : uart_status_t)
      (s1 : machine_t), uart_write fuel s p buffer buffer_size = some (st, s1) →
      port_unchanged s s1 q) ∧
    (∀ (buffer : Nat → Nat) (buffer_size : Nat),
      port_unchanged s (uart_write_nonblock s p buffer buffer_size).2 q) ∧
    port_unchanged s (uart_irq s p) q ∧
    uart_int_map p ≠ uart_int_map q ∧
    (∀ a b, a < NUM_UARTS → b < NUM_UARTS → uart_int_map a = uart_int_map b → a = b) := by
  have hqp : q ≠ p := Ne.symm hpq
  have hline : uart_int_map q ≠ uart_int_map p := fun h =>
    hqp (uart_int_map_injective q p hq hp h)
  refine ⟨?_, ?_, ?_, ?_, port_unchanged_uart_irq s p q hqp, Ne.symm hline,
    uart_int_map_injective⟩
  · intro baud_rate parity databits stopbits cbfn st s1 h
    rcases uart_init_outcomes k s s1 p baud_rate parity databits stopbits cbfn st hp h
      with hs | ⟨ctrl, hs⟩
    · subst hs
      refine ⟨port_unchanged_uart_init_failure k s p q baud_rate hqp, ?_, ?_⟩
      · intro i hi
        rw [uart_init_failure_clock_gate]
        exact testBit_or_shift_other _ _ _ hi
      · intro line _
        rfl
    · subst hs
      refine ⟨port_unchanged_uart_init_steps k s p q baud_rate ctrl stopbits cbfn hqp hline,
        ?_, ?_⟩
      · intro i hi
        rw [uart_init_ok_clock_gate]
        exact testBit_or_shift_other _ _ _ hi
      · intro line hl
        rw [uart_init_ok_interrupt_enabled, Function.update_noteq hl]
  · intro buffer buffer_size
    exact port_unchanged_of_machine s _ p q hqp (uart_read_machine s p buffer buffer_size)
  · intro fuel buffer buffer_size st s1 h
    exact port_unchanged_of_machine s s1 p q hqp
      (uart_write_machine fuel s s1 p buffer buffer_size st h)
  · intro buffer buffer_size
    exact port_unchanged_of_machine s _ p q hqp
      (uart_write_nonblock_machine s p buffer buffer_size)

/-- C19, worked example: UART 1 is set up with callback 1234, written to and
its handler run; UART 2 is unchanged by each of these calls. -/
theorem port_isolation_witness :
    (∃ s1, uart_init example_defs (example_machine 0x301 0x50 [65] 1 1 1234) 1 9600
        .UART_PARITY_NONE .UART_DATABITS_8 .UART_STOPBITS_1 1234 = some (.UART_OK, s1) ∧
      port_unchanged (example_machine 0x301 0x50 [65] 1 1 1234) s1 2) ∧
    (∃ s1, uart_write 8 (example_machine 0x301 0x50 [65] 1 1 1234) 1 (fun i => 0x61 + i) 2
        = some (.UART_OK, s1) ∧
      port_unchanged (example_machine 0x301 0x50 [65] 1 1 1234) s1 2) ∧
    port_unchanged (example_machine 0x301 0x50 [65] 1 1 1234)
      (uart_irq (example_machine 0x301 0x50 [65] 1 1 1234) 1) 2 ∧
    uart_int_map 1 ≠ uart_int_map 2 :=
  ⟨⟨_, rfl, ((port_isolation example_defs (example_machine 0x301 0x50 [65] 1 1 1234) 1 2
      (by decide) (by decide) (by decide)).1 9600 .UART_PARITY_NONE .UART_DATABITS_8
      .UART_STOPBITS_1 1234 _ _ rfl).1⟩,
    ⟨_, rfl, (port_isolation example_defs (example_machine 0x301 0x50 [65] 1 1 1234) 1 2
      (by decide) (by decide) (by decide)).2.2.1 8 (fun i => 0x61 + i) 2 _ _ rfl⟩,
    (port_isolation example_defs (example_machine 0x301 0x50 [65] 1 1 1234) 1 2
      (by decide) (by decide) (by decide)).2.2.2.2.1,
    (port_isolation example_defs (example_machine 0x301 0x50 [65] 1 1 1234) 1 2
      (by decide) (by decide) (by decide)).2.2.2.2.2.1⟩

end Uart
